import Mathlib

/-!
Verification of the natural-language specification of the rusticata/ldap-parser
crate against a shallow embedding of its source (src/parser.rs,
src/filter_parser.rs, src/ldap.rs, src/filter.rs, src/error.rs).

Bytes are modelled as `List Nat` (each element a byte value < 256), parsers as
total functions returning `Except Err (Input × α)` mirroring nom's
`IResult<&[u8], T, LdapError>`: `.ok (rem, v)` is `Ok((rem, v))`,
`.error (.failure e)` is `Err::Error(e)` and `.error (.incomplete n)` is
`Err::Incomplete(Needed)`.

The BER primitive layer (header/tag/length reading, integer, octet string,
boolean, null decoding, streaming `take`) lives in the external asn1-rs,
der_parser and nom crates, which are not under src/; those definitions are
modelled from the spec (§4.A, §4.B, §8.6) and from the documented semantics of
those crates, and are marked as such below.  Everything else is translated
directly from the repository sources.
-/

set_option maxRecDepth 4096

namespace LdapSpec

/-- Input buffers: sequences of bytes (values < 256 on real inputs). -/
abbrev Input := List Nat

/-- Modelled from the spec: nom's `ErrorKind` discriminants that the crate's
combinators (`verify`, `many0`, `many1`, `complete`) can produce. -/
inductive ErrorKind where
  | verifyK
  | many0K
  | many1K
  | completeK
  | mapResK
  deriving DecidableEq, Repr

/-- Modelled from the spec: the lower-level BER error causes (§7 `BerError(cause)`),
mirroring the asn1-rs `Error` type used by the crate (bad tag, bad length,
unsupported indefinite length, integer overflow, wrong class/constructed bit,
and asn1-rs's own embedded nom error kind). -/
inductive BerError where
  | invalidLength
  | invalidTag
  | indefiniteLengthUnexpected
  | unexpectedClass (c : Nat)
  | unexpectedTag (t : Nat)
  | integerTooLarge
  | integerNegative
  | constructUnexpected
  | nomError (k : ErrorKind)
  deriving DecidableEq, Repr

/-- The error enum of src/error.rs (`LdapError`). -/
inductive LdapError where
  | invalidString
  | invalidAuthenticationType
  | invalidDN
  | invalidSubstring
  | invalidFilterType
  | invalidMessageType
  | unknown
  | ber (e : BerError)
  | nomError (k : ErrorKind)
  deriving DecidableEq, Repr

/-- The nom error wrapper: `Err::Error`/`Err::Failure` (the crate only ever
produces and handles the recoverable kind) or `Err::Incomplete(Needed)`,
`none` standing for `Needed::Unknown` and `some n` for `Needed::Size(n)`. -/
inductive Err where
  | failure (e : LdapError)
  | incomplete (n : Option Nat)
  deriving DecidableEq, Repr

/-- Parse results: `IResult<&[u8], α, LdapError>` from src/error.rs. -/
abbrev PR (α : Type) := Except Err (Input × α)

/-- The result a parser in this model returns when the recursion fuel is
exhausted.  `LdapError::Unknown` is the spec's catch-all "reserved for
unreachable branches"; the totality theorems prove it is never returned. -/
def unkRes {α : Type} : PR α := Except.error (Err.failure LdapError.unknown)

-- ---------------------------------------------------------------------------
-- Data model (src/ldap.rs and src/filter.rs)
-- ---------------------------------------------------------------------------

/-- MessageID from src/ldap.rs: a u32 newtype. -/
structure MessageID where
  id : Nat
  deriving DecidableEq, Repr

/-- ResultCode from src/ldap.rs: a u32 newtype. -/
structure ResultCode where
  code : Nat
  deriving DecidableEq, Repr

/-- SearchScope from src/ldap.rs: a u32 newtype. -/
structure SearchScope where
  scope : Nat
  deriving DecidableEq, Repr

/-- DerefAliases from src/ldap.rs: a u32 newtype. -/
structure DerefAliases where
  deref : Nat
  deriving DecidableEq, Repr

/-- Operation from src/ldap.rs: a u32 newtype. -/
structure Operation where
  op : Nat
  deriving DecidableEq, Repr

/-- LdapString from src/ldap.rs: a borrowed UTF-8 string, modelled as its
underlying (already validated) byte slice. -/
structure LdapString where
  bytes : Input
  deriving DecidableEq, Repr

/-- LdapDN from src/ldap.rs. -/
structure LdapDN where
  bytes : Input
  deriving DecidableEq, Repr

/-- RelativeLdapDN from src/ldap.rs. -/
structure RelativeLdapDN where
  bytes : Input
  deriving DecidableEq, Repr

/-- LdapOID from src/ldap.rs. -/
structure LdapOID where
  bytes : Input
  deriving DecidableEq, Repr

/-- LdapResult from src/ldap.rs (the optional referral [3] is not represented,
as in the source). -/
structure LdapResult where
  result_code : ResultCode
  matched_dn : LdapDN
  diagnostic_message : LdapString
  deriving DecidableEq, Repr

/-- SaslCredentials from src/ldap.rs. -/
structure SaslCredentials where
  mechanism : LdapString
  credentials : Option Input
  deriving DecidableEq, Repr

/-- AuthenticationChoice from src/ldap.rs. -/
inductive AuthenticationChoice where
  | Simple (b : Input)
  | Sasl (c : SaslCredentials)
  deriving DecidableEq, Repr

/-- BindRequest from src/ldap.rs (`version: u8`). -/
structure BindRequest where
  version : Nat
  name : LdapDN
  authentication : AuthenticationChoice
  deriving DecidableEq, Repr

/-- BindResponse from src/ldap.rs. -/
structure BindResponse where
  result : LdapResult
  server_sasl_creds : Option Input
  deriving DecidableEq, Repr

/-- AttributeValueAssertion from src/filter.rs. -/
structure AttributeValueAssertion where
  attribute_desc : LdapString
  assertion_value : Input
  deriving DecidableEq, Repr

/-- AttributeDescription from src/filter.rs. -/
structure AttributeDescription where
  d : Input
  deriving DecidableEq, Repr

/-- AssertionValue from src/filter.rs. -/
structure AssertionValue where
  v : Input
  deriving DecidableEq, Repr

/-- AttributeValue from src/filter.rs. -/
structure AttributeValue where
  v : Input
  deriving DecidableEq, Repr

/-- MatchingRuleAssertion from src/filter.rs. -/
structure MatchingRuleAssertion where
  matching_rule : Option LdapString
  rule_type : Option AttributeDescription
  assertion_value : AssertionValue
  dn_attributes : Option Bool
  deriving DecidableEq, Repr

/-- Substring from src/filter.rs. -/
inductive Substring where
  | Initial (v : AssertionValue)
  | Any (v : AssertionValue)
  | Final (v : AssertionValue)
  deriving DecidableEq, Repr

/-- SubstringFilter from src/filter.rs. -/
structure SubstringFilter where
  filter_type : LdapString
  substrings : List Substring
  deriving DecidableEq, Repr

/-- Filter from src/filter.rs: the recursive filter CHOICE. -/
inductive Filter where
  | And (l : List Filter)
  | Or (l : List Filter)
  | Not (f : Filter)
  | EqualityMatch (a : AttributeValueAssertion)
  | Substrings (s : SubstringFilter)
  | GreaterOrEqual (a : AttributeValueAssertion)
  | LessOrEqual (a : AttributeValueAssertion)
  | Present (s : LdapString)
  | ApproxMatch (a : AttributeValueAssertion)
  | ExtensibleMatch (m : MatchingRuleAssertion)
  deriving Repr

/-- PartialAttribute from src/filter.rs. -/
structure PartialAttribute where
  attr_type : LdapString
  attr_vals : List AttributeValue
  deriving DecidableEq, Repr

/-- Attribute from src/filter.rs. -/
structure Attribute where
  attr_type : LdapString
  attr_vals : List AttributeValue
  deriving DecidableEq, Repr

/-- Change from src/ldap.rs. -/
structure Change where
  operation : Operation
  modification : PartialAttribute
  deriving DecidableEq, Repr

/-- SearchRequest from src/ldap.rs. -/
structure SearchRequest where
  base_object : LdapDN
  scope : SearchScope
  deref_aliases : DerefAliases
  size_limit : Nat
  time_limit : Nat
  types_only : Bool
  filter : Filter
  attributes : List LdapString

/-- SearchResultEntry from src/ldap.rs. -/
structure SearchResultEntry where
  object_name : LdapDN
  attributes : List PartialAttribute
  deriving DecidableEq, Repr

/-- ModifyRequest from src/ldap.rs. -/
structure ModifyRequest where
  object : LdapDN
  changes : List Change
  deriving DecidableEq, Repr

/-- ModifyResponse from src/ldap.rs. -/
structure ModifyResponse where
  result : LdapResult
  deriving DecidableEq, Repr

/-- AddRequest from src/ldap.rs. -/
structure AddRequest where
  entry : LdapDN
  attributes : List Attribute
  deriving DecidableEq, Repr

/-- ModDnRequest from src/ldap.rs. -/
structure ModDnRequest where
  entry : LdapDN
  newrdn : RelativeLdapDN
  deleteoldrdn : Bool
  newsuperior : Option LdapDN
  deriving DecidableEq, Repr

/-- CompareRequest from src/ldap.rs. -/
structure CompareRequest where
  entry : LdapDN
  ava : AttributeValueAssertion
  deriving DecidableEq, Repr

/-- ExtendedRequest from src/ldap.rs. -/
structure ExtendedRequest where
  request_name : LdapOID
  request_value : Option Input
  deriving DecidableEq, Repr

/-- ExtendedResponse from src/ldap.rs. -/
structure ExtendedResponse where
  result : LdapResult
  response_name : Option LdapOID
  response_value : Option Input
  deriving DecidableEq, Repr

/-- IntermediateResponse from src/ldap.rs. -/
structure IntermediateResponse where
  response_name : Option LdapOID
  response_value : Option Input
  deriving DecidableEq, Repr

/-- ProtocolOp from src/ldap.rs: the protocolOp CHOICE. -/
inductive ProtocolOp where
  | BindRequest (r : BindRequest)
  | BindResponse (r : BindResponse)
  | UnbindRequest
  | SearchRequest (r : SearchRequest)
  | SearchResultEntry (r : SearchResultEntry)
  | SearchResultDone (r : LdapResult)
  | SearchResultReference (uris : List LdapString)
  | ModifyRequest (r : ModifyRequest)
  | ModifyResponse (r : ModifyResponse)
  | AddRequest (r : AddRequest)
  | AddResponse (r : LdapResult)
  | DelRequest (dn : LdapDN)
  | DelResponse (r : LdapResult)
  | ModDnRequest (r : ModDnRequest)
  | ModDnResponse (r : LdapResult)
  | CompareRequest (r : CompareRequest)
  | CompareResponse (r : LdapResult)
  | AbandonRequest (id : MessageID)
  | ExtendedRequest (r : ExtendedRequest)
  | ExtendedResponse (r : ExtendedResponse)
  | IntermediateResponse (r : IntermediateResponse)

/-- ProtocolOp::tag from src/ldap.rs: the application tag number associated
with each operation. -/
def ProtocolOp.tag : ProtocolOp → Nat
  | .BindRequest _ => 0
  | .BindResponse _ => 1
  | .UnbindRequest => 2
  | .SearchRequest _ => 3
  | .SearchResultEntry _ => 4
  | .SearchResultDone _ => 5
  | .ModifyRequest _ => 6
  | .ModifyResponse _ => 7
  | .AddRequest _ => 8
  | .AddResponse _ => 9
  | .DelRequest _ => 10
  | .DelResponse _ => 11
  | .ModDnRequest _ => 12
  | .ModDnResponse _ => 13
  | .CompareRequest _ => 14
  | .CompareResponse _ => 15
  | .AbandonRequest _ => 16
  | .SearchResultReference _ => 19
  | .ExtendedRequest _ => 23
  | .ExtendedResponse _ => 24
  | .IntermediateResponse _ => 25

/-- ProtocolOp::result from src/ldap.rs: the embedded LDAP result, if present. -/
def ProtocolOp.result : ProtocolOp → Option LdapResult
  | .BindResponse r => some r.result
  | .ModifyResponse r => some r.result
  | .ExtendedResponse r => some r.result
  | .SearchResultDone r => some r
  | .AddResponse r => some r
  | .DelResponse r => some r
  | .ModDnResponse r => some r
  | .CompareResponse r => some r
  | _ => none

/-- Control from src/ldap.rs. -/
structure Control where
  control_type : LdapOID
  criticality : Bool
  control_value : Option Input
  deriving DecidableEq, Repr

/-- LdapMessage from src/ldap.rs. -/
structure LdapMessage where
  message_id : MessageID
  protocol_op : ProtocolOp
  controls : Option (List Control)

-- ---------------------------------------------------------------------------
-- BER primitive layer (spec §4.A/§4.B; implemented by the external asn1-rs,
-- der_parser and nom crates, which are not under src/)
-- ---------------------------------------------------------------------------

/-- Modelled from the spec: a decoded BER TLV header (§4.A): class bits,
constructed bit, tag number and length field. -/
inductive BerLength where
  | definite (n : Nat)
  | indefinite
  deriving DecidableEq, Repr

/-- Modelled from the spec: a decoded BER identifier and length (§4.A).
Class 0 is Universal, 1 Application, 2 ContextSpecific, 3 Private. -/
structure Header where
  cls : Nat
  constructed : Bool
  tag : Nat
  len : BerLength
  deriving DecidableEq, Repr

/-- Modelled from the spec: nom's streaming `take(n)`: when fewer than `n`
bytes remain it reports exactly the number of missing bytes
(`Needed::new(n - input.len())`), which is the spec's `ShortInput(n)` with
`n = declared - available` (§8.6). -/
def takeS (n : Nat) (i : Input) : PR Input :=
  if i.length < n then Except.error (Err.incomplete (some (n - i.length)))
  else Except.ok (i.drop n, i.take n)

/-- Big-endian byte concatenation as an unsigned number. -/
def beNat (l : Input) : Nat := l.foldl (fun a b => a * 256 + b) 0

/-- Modelled from the spec: multi-byte (high-tag-number) BER tag accumulation,
base 128 with continuation bit, rejecting tags that do not fit in a u32
(§4.A "tag number ... extended to multi-byte if all ones — must be
supported"). -/
def extTagLoop : Input → Nat → Except Err (Input × Nat)
  | [], _ => Except.error (Err.incomplete (some 1))
  | b :: r, acc =>
    let acc2 := acc * 128 + b % 128
    if acc2 < 2 ^ 32 then
      if b < 128 then Except.ok (r, acc2) else extTagLoop r acc2
    else Except.error (Err.failure (.ber .invalidTag))

/-- Modelled from the spec: reading one BER TLV header (§4.A): first octet
gives class (bits 7-6), constructed (bit 5) and tag (bits 4-0, extended when
all ones); the length octet is short form (< 0x80), indefinite (0x80),
reserved (0xFF, an error) or long form (length-of-length in the low bits,
followed by that many big-endian bytes). -/
def Header.from_ber : Input → Except Err (Input × Header)
  | [] => Except.error (Err.incomplete (some 1))
  | b :: r => do
    let cls := b / 64
    let constructed := b / 32 % 2 = 1
    let t0 := b % 32
    let (r1, tagv) ← if t0 = 31 then extTagLoop r 0 else Except.ok (r, t0)
    match r1 with
    | [] => Except.error (Err.incomplete (some 1))
    | l :: r2 =>
      if l < 128 then Except.ok (r2, ⟨cls, constructed, tagv, .definite l⟩)
      else if l = 128 then Except.ok (r2, ⟨cls, constructed, tagv, .indefinite⟩)
      else if l = 255 then Except.error (Err.failure (.ber .invalidLength))
      else do
        let (r3, lb) ← takeS (l - 128) r2
        Except.ok (r3, ⟨cls, constructed, tagv, .definite (beNat lb)⟩)

/-- der_parser's `ber_read_element_header` (the same header reader re-exported
from asn1-rs). -/
def ber_read_element_header : Input → PR Header := Header.from_ber

/-- Modelled from the spec: asn1-rs `Any::from_ber` — read a header and take
its definite-length content with streaming `take` (§4.A; indefinite length is
unsupported and signals an error). -/
def Any.from_ber (i : Input) : Except Err (Input × (Header × Input)) := do
  let (rem, hdr) ← Header.from_ber i
  match hdr.len with
  | .indefinite => Except.error (Err.failure (.ber .indefiniteLengthUnexpected))
  | .definite l => do
    let (rem2, content) ← takeS l rem
    Except.ok (rem2, (hdr, content))

/-- Modelled from the spec: asn1-rs header class assertion (wrong class is a
`BerError` cause, §7). -/
def assertClass (c : Nat) (hdr : Header) : Except Err Unit :=
  if hdr.cls = c then Except.ok () else Except.error (Err.failure (.ber (.unexpectedClass hdr.cls)))

/-- Modelled from the spec: asn1-rs/der_parser tag-number assertion (wrong tag
is a `BerError` cause, §7). -/
def assertTag (t : Nat) (hdr : Header) : Except Err Unit :=
  if hdr.tag = t then Except.ok () else Except.error (Err.failure (.ber (.unexpectedTag hdr.tag)))

/-- Modelled from the spec: asn1-rs primitive-encoding assertion (unexpected
constructed bit is a `BerError` cause, §7). -/
def assertPrimitive (hdr : Header) : Except Err Unit :=
  if hdr.constructed then Except.error (Err.failure (.ber .constructUnexpected)) else Except.ok ()

/-- Modelled from the spec: asn1-rs constructed-encoding assertion for
SEQUENCE/SET containers (§4.B). -/
def assertConstructed (hdr : Header) : Except Err Unit :=
  if hdr.constructed then Except.ok () else Except.error (Err.failure (.ber .constructUnexpected))

/-- Modelled from the spec: asn1-rs `Sequence::from_ber_and_then` — open a
Universal SEQUENCE (tag 16, constructed) and run the inner decoder on its
content; bytes of the content the inner decoder leaves over are discarded
(§4.G "ignore, return the remainder as caller-visible"). -/
def Sequence.from_ber_and_then (bytes : Input) (op : Input → Except Err (Input × α)) :
    Except Err (Input × α) := do
  let (rem, (hdr, data)) ← Any.from_ber bytes
  let _ ← assertTag 16 hdr
  let _ ← assertConstructed hdr
  let (_, v) ← op data
  Except.ok (rem, v)

/-- Modelled from the spec: asn1-rs `TaggedParser::from_ber_and_then` — assert
class and tag of the next TLV and run the inner decoder on its content
(IMPLICIT tagging: the content bytes are handed over directly, §4.B style 1);
leftover content is discarded. -/
def TaggedParser.from_ber_and_then (cls tagv : Nat) (bytes : Input)
    (op : Input → Except Err (Input × α)) : Except Err (Input × α) := do
  let (rem, (hdr, data)) ← Any.from_ber bytes
  let _ ← assertClass cls hdr
  let _ ← assertTag tagv hdr
  let (_, v) ← op data
  Except.ok (rem, v)

/-- Modelled from the spec: asn1-rs `OptTaggedParser::parse_ber` — peek the
next TLV; on class and tag match consume it and run the inner decoder on its
content, otherwise leave the input untouched and return absent (§4.B style 2). -/
def OptTaggedParser.parse_ber (cls tagv : Nat) (bytes : Input)
    (op : Input → Except Err (Input × α)) : Except Err (Input × Option α) :=
  match bytes with
  | [] => Except.ok ([], none)
  | _ => do
    let (rem, (hdr, data)) ← Any.from_ber bytes
    if hdr.cls = cls ∧ hdr.tag = tagv then do
      let (_, v) ← op data
      Except.ok (rem, some v)
    else Except.ok (bytes, none)

/-- Modelled from the spec: asn1-rs unsigned-integer content decoding —
two's-complement big-endian, rejecting negative values and values wider than
`sz` bytes after stripping leading zero octets (§4.A INTEGER: "Expose u32
accessors that fail on negative or >32-bit values"). -/
def bytes_to_uint (sz : Nat) (data : Input) : Except Err Nat :=
  match data with
  | [] => Except.ok 0
  | b :: _ =>
    if 128 ≤ b then Except.error (Err.failure (.ber .integerNegative))
    else if sz < (data.dropWhile (fun x => x = 0)).length then
      Except.error (Err.failure (.ber .integerTooLarge))
    else Except.ok (beNat data)

/-- Modelled from the spec: asn1-rs `u32::from_ber` — a universal INTEGER
(tag 2, primitive) whose value fits an unsigned 32-bit integer. -/
def u32_from_ber (i : Input) : Except Err (Input × Nat) := do
  let (rem, (hdr, data)) ← Any.from_ber i
  let _ ← assertTag 2 hdr
  let _ ← assertPrimitive hdr
  let v ← bytes_to_uint 4 data
  Except.ok (rem, v)

/-- Modelled from the spec: asn1-rs `u8::from_ber` — a universal INTEGER
(tag 2, primitive) whose value fits an unsigned 8-bit integer. -/
def u8_from_ber (i : Input) : Except Err (Input × Nat) := do
  let (rem, (hdr, data)) ← Any.from_ber i
  let _ ← assertTag 2 hdr
  let _ ← assertPrimitive hdr
  let v ← bytes_to_uint 1 data
  Except.ok (rem, v)

/-- Modelled from the spec: asn1-rs `Enumerated::from_ber` — identical wire
form to INTEGER, universal tag 10 (§4.A). -/
def Enumerated.from_ber (i : Input) : Except Err (Input × Nat) := do
  let (rem, (hdr, data)) ← Any.from_ber i
  let _ ← assertTag 10 hdr
  let _ ← assertPrimitive hdr
  let v ← bytes_to_uint 4 data
  Except.ok (rem, v)

/-- Modelled from the spec: asn1-rs `<&[u8]>::from_ber` / der_parser
`parse_ber_octetstring` content access — a universal OCTET STRING (tag 4)
whose value bytes are the content (§4.A; the corpus and every claim exercise
only the primitive encoding). -/
def octetstring_as_slice (i : Input) : Except Err (Input × Input) := do
  let (rem, (hdr, data)) ← Any.from_ber i
  let _ ← assertTag 4 hdr
  Except.ok (rem, data)

/-- Modelled from the spec: asn1-rs `bool::from_ber` — universal tag 1,
primitive, exactly one content octet; 0x00 is false, any non-zero is true
(§4.A BOOLEAN). -/
def bool_from_ber (i : Input) : Except Err (Input × Bool) := do
  let (rem, (hdr, data)) ← Any.from_ber i
  let _ ← assertTag 1 hdr
  let _ ← assertPrimitive hdr
  match data with
  | [b] => Except.ok (rem, decide (b ≠ 0))
  | _ => Except.error (Err.failure (.ber .invalidLength))

/-- Modelled from the spec: asn1-rs `<()>::from_ber` — universal NULL, tag 5,
zero-length content (§4.A NULL). -/
def null_from_ber (i : Input) : Except Err (Input × Unit) := do
  let (rem, (hdr, data)) ← Any.from_ber i
  let _ ← assertTag 5 hdr
  match data with
  | [] => Except.ok (rem, ())
  | _ => Except.error (Err.failure (.ber .invalidLength))

/-- Modelled from the spec: asn1-rs `Option<bool>::from_ber` (used for the
DEFAULT FALSE `criticality` field) — absent on empty input or recoverable
mismatch, leaving the input untouched (§4.B style 2). -/
def opt_bool_from_ber (i : Input) : PR (Option Bool) :=
  match i with
  | [] => Except.ok ([], none)
  | _ =>
    match bool_from_ber i with
    | .ok (rem, b) => Except.ok (rem, some b)
    | .error (.failure _) => Except.ok (i, none)
    | .error (.incomplete n) => Except.error (Err.incomplete n)

-- ---------------------------------------------------------------------------
-- nom combinators used by the crate (complete, opt, verify, many0, many1)
-- ---------------------------------------------------------------------------

/-- Modelled from the spec: nom `complete` — turn `Incomplete` into a
recoverable error of kind `Complete`. -/
def completeC (p : Input → Except Err (Input × α)) (i : Input) : Except Err (Input × α) :=
  match p i with
  | .error (.incomplete _) => Except.error (Err.failure (.nomError .completeK))
  | r => r

/-- Modelled from the spec: nom `opt` — recover from a recoverable error with
`none`, leaving the input untouched; `Incomplete` propagates. -/
def optC (p : Input → Except Err (Input × α)) (i : Input) : Except Err (Input × Option α) :=
  match p i with
  | .ok (rem, v) => Except.ok (rem, some v)
  | .error (.failure _) => Except.ok (i, none)
  | .error (.incomplete n) => Except.error (Err.incomplete n)

/-- Modelled from the spec: nom `map` over a parser. -/
def pmap (f : α → β) (p : Input → Except Err (Input × α)) (i : Input) : Except Err (Input × β) :=
  match p i with
  | .ok (rem, v) => Except.ok (rem, f v)
  | .error e => Except.error e

/-- Modelled from the spec: the repetition loop shared by nom `many0`/`many1`:
stop with the accumulated list on a recoverable error, propagate other errors,
and reject an iteration that consumes no input (nom's infinite-loop guard
`i1 == i`, expressed on lengths because every parser returns a tail of its
input).  The fuel argument only bounds the recursion; one unit per consumed
byte is always enough, which the totality lemmas below prove. -/
def manyLoop : Nat → ErrorKind → (Input → Except Err (Input × α)) → Input →
    Except Err (Input × List α)
  | 0, _, _, _ => unkRes
  | fuel + 1, k, p, i =>
    match p i with
    | .error (.failure _) => Except.ok (i, [])
    | .error e => Except.error e
    | .ok (i1, x) =>
      if i1.length < i.length then
        match manyLoop fuel k p i1 with
        | .ok (i2, xs) => Except.ok (i2, x :: xs)
        | .error e => Except.error e
      else Except.error (Err.failure (.nomError k))

/-- Modelled from the spec: nom `many0`. -/
def many0 (p : Input → Except Err (Input × α)) (i : Input) : Except Err (Input × List α) :=
  manyLoop (i.length + 1) .many0K p i

/-- Modelled from the spec: nom `many1` — the first element is mandatory; its
recoverable failure becomes an error of kind `Many1`. -/
def many1 (p : Input → Except Err (Input × α)) (i : Input) : Except Err (Input × List α) :=
  match p i with
  | .error (.failure _) => Except.error (Err.failure (.nomError .many1K))
  | .error e => Except.error e
  | .ok (i1, x) =>
    if i1.length < i.length then
      match manyLoop (i1.length + 1) .many1K p i1 with
      | .ok (i2, xs) => Except.ok (i2, x :: xs)
      | .error e => Except.error e
    else Except.error (Err.failure (.nomError .many1K))

-- ---------------------------------------------------------------------------
-- UTF-8 validation (std::str::from_utf8)
-- ---------------------------------------------------------------------------

/-- Byte range test used by the UTF-8 validator. -/
def btw (lo hi b : Nat) : Bool := decide (lo ≤ b ∧ b < hi)

/-- Modelled from the spec: `std::str::from_utf8` validity (§4.C "only UTF-8
well-formedness is enforced"): the standard table of RFC 3629, rejecting
overlong forms, surrogates and code points above U+10FFFF. -/
def utf8Valid : Input → Bool
  | [] => true
  | b :: rest =>
    if b < 128 then utf8Valid rest
    else if b < 194 then false
    else if b < 224 then
      match rest with
      | c1 :: r => btw 128 192 c1 && utf8Valid r
      | [] => false
    else if b < 240 then
      match rest with
      | c1 :: c2 :: r =>
        (if b = 224 then btw 160 192 c1
         else if b = 237 then btw 128 160 c1
         else btw 128 192 c1) && btw 128 192 c2 && utf8Valid r
      | _ => false
    else if b < 245 then
      match rest with
      | c1 :: c2 :: c3 :: r =>
        (if b = 240 then btw 144 192 c1
         else if b = 244 then btw 128 144 c1
         else btw 128 192 c1) && btw 128 192 c2 && btw 128 192 c3 && utf8Valid r
      | _ => false
    else false

-- ---------------------------------------------------------------------------
-- LDAP string/DN/OID layer (src/parser.rs lines 29-97)
-- ---------------------------------------------------------------------------

/-- BER class constants (asn1-rs `Class`). -/
def Class.Universal : Nat := 0

/-- BER class constant for Application. -/
def Class.Application : Nat := 1

/-- BER class constant for ContextSpecific. -/
def Class.ContextSpecific : Nat := 2

/-- parse_ldap_octet_string_as_slice from src/parser.rs line 41
(`<&[u8]>::from_ber`). -/
def parse_ldap_octet_string_as_slice : Input → Except Err (Input × Input) :=
  octetstring_as_slice

/-- LdapString::from_ber from src/parser.rs lines 31-38: an OCTET STRING whose
bytes must be valid UTF-8 (`InvalidString` otherwise).  The legacy
`parse_ldap_string` used by src/filter_parser.rs has the same body. -/
def LdapString.from_ber (bytes : Input) : Except Err (Input × LdapString) := do
  let (i, b) ← parse_ldap_octet_string_as_slice bytes
  if utf8Valid b then Except.ok (i, ⟨b⟩) else Except.error (Err.failure .invalidString)

/-- parse_ldap_string from src/ldap_parser.rs line 27, called by
src/filter_parser.rs (identical to `LdapString::from_ber`). -/
def parse_ldap_string : Input → Except Err (Input × LdapString) := LdapString.from_ber

/-- LdapDN::from_ber from src/parser.rs lines 58-66 (`InvalidDN` on bad UTF-8). -/
def LdapDN.from_ber (bytes : Input) : Except Err (Input × LdapDN) := do
  let (i, b) ← octetstring_as_slice bytes
  if utf8Valid b then Except.ok (i, ⟨b⟩) else Except.error (Err.failure .invalidDN)

/-- RelativeLdapDN::from_ber from src/parser.rs lines 70-78. -/
def RelativeLdapDN.from_ber (bytes : Input) : Except Err (Input × RelativeLdapDN) := do
  let (i, b) ← octetstring_as_slice bytes
  if utf8Valid b then Except.ok (i, ⟨b⟩) else Except.error (Err.failure .invalidDN)

/-- LdapOID::from_ber from src/parser.rs lines 82-90 (also reports
`InvalidDN` on bad UTF-8, as in the source). -/
def LdapOID.from_ber (bytes : Input) : Except Err (Input × LdapOID) := do
  let (i, b) ← octetstring_as_slice bytes
  if utf8Valid b then Except.ok (i, ⟨b⟩) else Except.error (Err.failure .invalidDN)

/-- MessageID::from_ber from src/parser.rs lines 23-27. -/
def MessageID.from_ber : Input → Except Err (Input × MessageID) :=
  pmap MessageID.mk u32_from_ber

/-- parse_ldap_int_as_u32 from src/parser.rs line 46. -/
def parse_ldap_int_as_u32 : Input → Except Err (Input × Nat) := u32_from_ber

/-- parse_ldap_enum_as_u32 from src/parser.rs lines 51-54. -/
def parse_ldap_enum_as_u32 : Input → Except Err (Input × Nat) := Enumerated.from_ber

/-- parse_ldap_uri from src/parser.rs lines 95-97. -/
def parse_ldap_uri : Input → Except Err (Input × LdapString) := LdapString.from_ber

-- ---------------------------------------------------------------------------
-- der_parser container combinators used by src/filter_parser.rs
-- ---------------------------------------------------------------------------

/-- Modelled from the spec: der_parser `parse_ber_container` — read a header,
take its definite-length content, run the inner decoder on the content and
discard what it leaves over (§4.B; indefinite length unsupported). -/
def parse_ber_container (f : Input → Header → Except Err (Input × α)) (i : Input) :
    Except Err (Input × α) := do
  let (rem, hdr) ← Header.from_ber i
  match hdr.len with
  | .indefinite => Except.error (Err.failure (.ber .indefiniteLengthUnexpected))
  | .definite l => do
    let (rem2, content) ← takeS l rem
    let (_, v) ← f content hdr
    Except.ok (rem2, v)

/-- Modelled from the spec: der_parser `parse_ber_tagged_implicit_g` — assert
the tag number (the class is not checked by this combinator) and hand the raw
content bytes to the inner decoder (IMPLICIT tagging, §4.B). -/
def parse_ber_tagged_implicit_g (t : Nat) (f : Input → Header → Except Err (Input × α)) :
    Input → Except Err (Input × α) :=
  parse_ber_container fun content hdr => do
    let _ ← assertTag t hdr
    f content hdr

/-- Modelled from the spec: der_parser `parse_ber_sequence_defined_g`
(a container whose tag must be SEQUENCE, universal 16). -/
def parse_ber_sequence_defined_g (f : Input → Except Err (Input × α)) :
    Input → Except Err (Input × α) :=
  parse_ber_container fun content hdr => do
    let _ ← assertTag 16 hdr
    f content

/-- Modelled from the spec: der_parser `parse_ber_set_defined_g`
(a container whose tag must be SET, universal 17). -/
def parse_ber_set_defined_g (f : Input → Except Err (Input × α)) :
    Input → Except Err (Input × α) :=
  parse_ber_container fun content hdr => do
    let _ ← assertTag 17 hdr
    f content

-- ---------------------------------------------------------------------------
-- Filter decoder (src/filter_parser.rs)
-- ---------------------------------------------------------------------------

/-- parse_ldap_attribute_description from src/filter_parser.rs lines 15-18. -/
def parse_ldap_attribute_description : Input → Except Err (Input × LdapString) :=
  parse_ldap_string

/-- parse_ldap_assertion_value from src/filter_parser.rs lines 44-47. -/
def parse_ldap_assertion_value : Input → Except Err (Input × Input) :=
  parse_ldap_octet_string_as_slice

/-- parse_ldap_attribute_value_assertion_content from src/filter_parser.rs
lines 29-37. -/
def parse_ldap_attribute_value_assertion_content (content : Input) :
    Except Err (Input × AttributeValueAssertion) := do
  let (c1, attribute_desc) ← parse_ldap_attribute_description content
  let (c2, assertion_value) ← parse_ldap_assertion_value c1
  Except.ok (c2, ⟨attribute_desc, assertion_value⟩)

/-- parse_ldap_attribute_value_assertion from src/filter_parser.rs lines 39-41. -/
def parse_ldap_attribute_value_assertion : Input → Except Err (Input × AttributeValueAssertion) :=
  parse_ber_sequence_defined_g parse_ldap_attribute_value_assertion_content

/-- parse_ldap_attribute_value from src/filter_parser.rs lines 50-55. -/
def parse_ldap_attribute_value : Input → Except Err (Input × AttributeValue) :=
  pmap AttributeValue.mk parse_ldap_octet_string_as_slice

/-- parse_ldap_partial_attribute from src/filter_parser.rs lines 60-75:
SEQUENCE of a type and a SET OF zero-or-more values. -/
def parse_ldap_partial_attribute : Input → Except Err (Input × PartialAttribute) :=
  parse_ber_sequence_defined_g fun i => do
    let (i, attr_type) ← parse_ldap_string i
    let (i, attr_vals) ←
      parse_ber_set_defined_g (fun inner => many0 (completeC parse_ldap_attribute_value) inner) i
    Except.ok (i, ⟨attr_type, attr_vals⟩)

/-- parse_ldap_attribute from src/filter_parser.rs lines 80-95: like
parse_ldap_partial_attribute but the value set must be non-empty (`many1`). -/
def parse_ldap_attribute : Input → Except Err (Input × Attribute) :=
  parse_ber_sequence_defined_g fun i => do
    let (i, attr_type) ← parse_ldap_string i
    let (i, attr_vals) ←
      parse_ber_set_defined_g (fun inner => many1 (completeC parse_ldap_attribute_value) inner) i
    Except.ok (i, ⟨attr_type, attr_vals⟩)

/-- parse_ldap_substring from src/filter_parser.rs lines 199-211: a
context-tagged [0]/[1]/[2] assertion value; other tags are
`InvalidSubstring`. -/
def parse_ldap_substring : Input → Except Err (Input × Substring) :=
  parse_ber_container fun i hdr =>
    match hdr.tag with
    | 0 => Except.ok ([], .Initial ⟨i⟩)
    | 1 => Except.ok ([], .Any ⟨i⟩)
    | 2 => Except.ok ([], .Final ⟨i⟩)
    | _ => Except.error (Err.failure .invalidSubstring)

/-- parse_ldap_substrings_filter_content from src/filter_parser.rs
lines 188-197. -/
def parse_ldap_substrings_filter_content (i : Input) :
    Except Err (Input × SubstringFilter) := do
  let (i, filter_type) ← parse_ldap_attribute_description i
  let (i, substrings) ←
    parse_ber_sequence_defined_g (fun d => many1 (completeC parse_ldap_substring) d) i
  Except.ok (i, ⟨filter_type, substrings⟩)

/-- parse_ldap_matching_rule_assertion_content from src/filter_parser.rs
lines 218-256: three optional IMPLICIT tagged fields [1],[2],[4] around the
mandatory assertion value [3]. -/
def parse_ldap_matching_rule_assertion_content (i : Input) :
    Except Err (Input × MatchingRuleAssertion) := do
  let (i, matching_rule) ← optC (completeC (parse_ber_tagged_implicit_g 1
    (fun content _hdr =>
      if utf8Valid content then Except.ok ([], LdapString.mk content)
      else Except.error (Err.failure .invalidString)))) i
  let (i, rule_type) ← optC (completeC (parse_ber_tagged_implicit_g 2
    (fun content _hdr =>
      if utf8Valid content then Except.ok ([], AttributeDescription.mk content)
      else Except.error (Err.failure .invalidString)))) i
  let (i, assertion_value) ← parse_ber_tagged_implicit_g 3
    (fun content _hdr => Except.ok ([], AssertionValue.mk content)) i
  let (i, dn_attributes) ← optC (completeC (parse_ber_tagged_implicit_g 4
    (fun content _hdr =>
      match content with
      | [b] => Except.ok ([], decide (b ≠ 0))
      | _ => Except.error (Err.failure (.ber .invalidLength))))) i
  Except.ok (i, ⟨matching_rule, rule_type, assertion_value, dn_attributes⟩)

/-- parse_ldap_filter from src/filter_parser.rs lines 111-179: peek the next
header and dispatch on its tag number; tags 0,1 decode one-or-more child
filters, tag 2 exactly one, tags 3,5,6,8 an AVA, 4 a substring filter, 7 a
present match, 9 a matching-rule assertion, anything else is
`InvalidFilterType`.  The source recurses without any depth counter; the
explicit fuel, decremented at every recursive call, only bounds this model's
recursion and is proved never to run out when it exceeds the input length
(one byte of input is consumed per level). -/
def parse_ldap_filter : Nat → Input → Except Err (Input × Filter)
  | 0, _ => unkRes
  | fuel + 1, i => do
    let (_, header) ← ber_read_element_header i
    (match header.tag with
    | 0 => do
      let (i2, sub_filters) ← parse_ber_tagged_implicit_g 0
        (fun content _hdr => many1 (completeC (parse_ldap_filter fuel)) content) i
      Except.ok (i2, Filter.And sub_filters)
    | 1 => do
      let (i2, sub_filters) ← parse_ber_tagged_implicit_g 1
        (fun content _hdr => many1 (completeC (parse_ldap_filter fuel)) content) i
      Except.ok (i2, Filter.Or sub_filters)
    | 2 => do
      let (i2, sub_filter) ← parse_ber_tagged_implicit_g 2
        (fun content _hdr => parse_ldap_filter fuel content) i
      Except.ok (i2, Filter.Not sub_filter)
    | 3 => parse_ber_tagged_implicit_g 3
        (fun content _hdr =>
          pmap Filter.EqualityMatch parse_ldap_attribute_value_assertion_content content) i
    | 4 => parse_ber_tagged_implicit_g 4
        (fun content _hdr =>
          pmap Filter.Substrings parse_ldap_substrings_filter_content content) i
    | 5 => parse_ber_tagged_implicit_g 5
        (fun content _hdr =>
          pmap Filter.GreaterOrEqual parse_ldap_attribute_value_assertion_content content) i
    | 6 => parse_ber_tagged_implicit_g 6
        (fun content _hdr =>
          pmap Filter.LessOrEqual parse_ldap_attribute_value_assertion_content content) i
    | 7 => parse_ber_tagged_implicit_g 7
        (fun content _hdr =>
          if utf8Valid content then Except.ok ([], Filter.Present ⟨content⟩)
          else Except.error (Err.failure .invalidString)) i
    | 8 => parse_ber_tagged_implicit_g 8
        (fun content _hdr =>
          pmap Filter.ApproxMatch parse_ldap_attribute_value_assertion_content content) i
    | 9 => parse_ber_tagged_implicit_g 9
        (fun content _hdr =>
          pmap Filter.ExtensibleMatch parse_ldap_matching_rule_assertion_content content) i
    | _ => Except.error (Err.failure .invalidFilterType) :
      Except Err (Input × Filter))

/-- Modelled from the spec: the `FromBer` delegation of `Filter` to
`parse_ldap_filter` — the impl block itself is not under src/ (only its
caller at src/parser.rs line 380 and the per-type decoder interface, spec §6
item 3).  The fuel (input length + 1) always suffices; see the totality
lemmas. -/
def Filter.from_ber (i : Input) : Except Err (Input × Filter) :=
  parse_ldap_filter (i.length + 1) i

/-- Modelled from the spec: the `FromBer` delegation of `PartialAttribute` to
parse_ldap_partial_attribute (impl block not under src/; caller at
src/parser.rs line 686). -/
def PartialAttribute.from_ber : Input → Except Err (Input × PartialAttribute) :=
  parse_ldap_partial_attribute

/-- Modelled from the spec: the `FromBer` delegation of `Attribute` to
parse_ldap_attribute (impl block not under src/; caller at src/parser.rs
line 691). -/
def Attribute.from_ber : Input → Except Err (Input × Attribute) :=
  parse_ldap_attribute

/-- Modelled from the spec: the `FromBer` delegation of
`AttributeValueAssertion` to parse_ldap_attribute_value_assertion (impl block
not under src/; caller at src/parser.rs line 521). -/
def AttributeValueAssertion.from_ber : Input → Except Err (Input × AttributeValueAssertion) :=
  parse_ldap_attribute_value_assertion

-- ---------------------------------------------------------------------------
-- Per-operation decoders and the message envelope (src/parser.rs)
-- ---------------------------------------------------------------------------

/-- Modelled from the spec: nom `verify` — run the parser and require the
predicate to hold of its output, failing with nom's `Verify` error kind
(carried inside the asn1-rs error before `Err::convert` wraps it as
`LdapError::Ber`). -/
def verifyC (p : Input → Except Err (Input × α)) (pred : α → Bool) (i : Input) :
    Except Err (Input × α) :=
  match p i with
  | .ok (rem, v) =>
    if pred v then Except.ok (rem, v)
    else Except.error (Err.failure (.ber (.nomError .verifyK)))
  | .error e => Except.error e

/-- parse_ldap_result_content from src/parser.rs lines 164-175: resultCode
(ENUMERATED), matchedDN, diagnosticMessage.  The optional referral [3] is not
read (the source's TODO); whatever follows is left in the remainder. -/
def parse_ldap_result_content (i : Input) : Except Err (Input × LdapResult) := do
  let (i, result_code) ← pmap ResultCode.mk parse_ldap_enum_as_u32 i
  let (i, matched_dn) ← LdapDN.from_ber i
  let (i, diagnostic_message) ← LdapString.from_ber i
  Except.ok (i, ⟨result_code, matched_dn, diagnostic_message⟩)

/-- parse_sasl_credentials from src/parser.rs lines 664-675. -/
def parse_sasl_credentials (i : Input) : Except Err (Input × SaslCredentials) := do
  let (i, mechanism) ← LdapString.from_ber i
  let (i, credentials) ← optC (completeC parse_ldap_octet_string_as_slice) i
  Except.ok (i, ⟨mechanism, credentials⟩)

/-- AuthenticationChoice::from_ber from src/parser.rs lines 628-659: peek the
header; context tag 0 takes the declared number of content bytes verbatim as
Simple, tag 3 parses SaslCredentials from the bytes after the header, and any
other tag is `InvalidAuthenticationType`. -/
def AuthenticationChoice.from_ber (bytes : Input) :
    Except Err (Input × AuthenticationChoice) := do
  let (rem, header) ← Header.from_ber bytes
  (match header.tag with
  | 0 => do
    let sz ← (match header.len with
      | .definite n => Except.ok n
      | .indefinite => Except.error (Err.failure (.ber .indefiniteLengthUnexpected)))
    let (i, b) ← takeS sz rem
    Except.ok (i, AuthenticationChoice.Simple b)
  | 3 => pmap AuthenticationChoice.Sasl parse_sasl_credentials rem
  | _ => Except.error (Err.failure .invalidAuthenticationType) :
    Except Err (Input × AuthenticationChoice))

/-- BindRequest::from_ber from src/parser.rs lines 303-319: APPLICATION[0],
version an INTEGER verified to be < 128, then name and authentication. -/
def BindRequest.from_ber (bytes : Input) : Except Err (Input × BindRequest) :=
  TaggedParser.from_ber_and_then Class.Application 0 bytes fun i => do
    let (i, version) ← verifyC u8_from_ber (fun n => decide (n < 128)) i
    let (i, name) ← LdapDN.from_ber i
    let (i, authentication) ← AuthenticationChoice.from_ber i
    Except.ok (i, ⟨version, name, authentication⟩)

/-- BindResponse::from_ber from src/parser.rs lines 324-341: APPLICATION[1],
LDAPResult fields inline then optional serverSaslCreds [7] taken verbatim. -/
def BindResponse.from_ber (bytes : Input) : Except Err (Input × BindResponse) :=
  TaggedParser.from_ber_and_then Class.Application 1 bytes fun i => do
    let (i, result) ← parse_ldap_result_content i
    let (i, server_sasl_creds) ← OptTaggedParser.parse_ber Class.ContextSpecific 7 i
      (fun data => Except.ok ([], data))
    Except.ok (i, ⟨result, server_sasl_creds⟩)

/-- parse_ldap_unbind_request from src/parser.rs lines 344-352: APPLICATION[2];
empty content accepted, otherwise the content must parse as NULL. -/
def parse_ldap_unbind_request (bytes : Input) : Except Err (Input × ProtocolOp) :=
  TaggedParser.from_ber_and_then Class.Application 2 bytes fun i =>
    if i = [] then Except.ok (i, ProtocolOp.UnbindRequest)
    else do
      let (_, _) ← null_from_ber i
      Except.ok (i, ProtocolOp.UnbindRequest)

/-- parse_attribute_selection from src/parser.rs lines 680-682. -/
def parse_attribute_selection (bytes : Input) : Except Err (Input × List LdapString) :=
  Sequence.from_ber_and_then bytes fun i => many0 (completeC LdapString.from_ber) i

/-- SearchRequest::from_ber from src/parser.rs lines 371-395: APPLICATION[3]
with the eight fields in order; the filter is the recursive Filter decoder. -/
def SearchRequest.from_ber (bytes : Input) : Except Err (Input × SearchRequest) :=
  TaggedParser.from_ber_and_then Class.Application 3 bytes fun i => do
    let (i, base_object) ← LdapDN.from_ber i
    let (i, scope) ← pmap SearchScope.mk parse_ldap_enum_as_u32 i
    let (i, deref_aliases) ← pmap DerefAliases.mk parse_ldap_enum_as_u32 i
    let (i, size_limit) ← parse_ldap_int_as_u32 i
    let (i, time_limit) ← parse_ldap_int_as_u32 i
    let (i, types_only) ← bool_from_ber i
    let (i, filter) ← Filter.from_ber i
    let (i, attributes) ← parse_attribute_selection i
    Except.ok (i, ⟨base_object, scope, deref_aliases, size_limit, time_limit,
      types_only, filter, attributes⟩)

/-- parse_partial_attribute_list from src/parser.rs lines 685-687. -/
def parse_partial_attribute_list (bytes : Input) : Except Err (Input × List PartialAttribute) :=
  Sequence.from_ber_and_then bytes fun i => many0 (completeC PartialAttribute.from_ber) i

/-- SearchResultEntry::from_ber from src/parser.rs lines 400-412: APPLICATION[4]. -/
def SearchResultEntry.from_ber (bytes : Input) : Except Err (Input × SearchResultEntry) :=
  TaggedParser.from_ber_and_then Class.Application 4 bytes fun i => do
    let (i, object_name) ← LdapDN.from_ber i
    let (i, attributes) ← parse_partial_attribute_list i
    Except.ok (i, ⟨object_name, attributes⟩)

/-- parse_ldap_search_result_done from src/parser.rs lines 415-417:
APPLICATION[5] wrapping LDAPResult content. -/
def parse_ldap_search_result_done (bytes : Input) : Except Err (Input × LdapResult) :=
  TaggedParser.from_ber_and_then Class.Application 5 bytes parse_ldap_result_content

/-- Change::from_ber from src/parser.rs lines 701-713. -/
def Change.from_ber (bytes : Input) : Except Err (Input × Change) :=
  Sequence.from_ber_and_then bytes fun i => do
    let (i, operation) ← pmap Operation.mk parse_ldap_enum_as_u32 i
    let (i, modification) ← PartialAttribute.from_ber i
    Except.ok (i, ⟨operation, modification⟩)

/-- ModifyRequest::from_ber from src/parser.rs lines 428-437: APPLICATION[6],
a DN then a SEQUENCE of one-or-more changes. -/
def ModifyRequest.from_ber (bytes : Input) : Except Err (Input × ModifyRequest) :=
  TaggedParser.from_ber_and_then Class.Application 6 bytes fun i => do
    let (i, object) ← LdapDN.from_ber i
    let (i, changes) ← Sequence.from_ber_and_then i
      (fun j => many1 (completeC Change.from_ber) j)
    Except.ok (i, ⟨object, changes⟩)

/-- parse_ldap_modify_response from src/parser.rs lines 440-446: APPLICATION[7]. -/
def parse_ldap_modify_response (bytes : Input) : Except Err (Input × ModifyResponse) :=
  TaggedParser.from_ber_and_then Class.Application 7 bytes fun i => do
    let (i, result) ← parse_ldap_result_content i
    Except.ok (i, ⟨result⟩)

/-- parse_attribute_list from src/parser.rs lines 690-692. -/
def parse_attribute_list (bytes : Input) : Except Err (Input × List Attribute) :=
  Sequence.from_ber_and_then bytes fun i => many0 (completeC Attribute.from_ber) i

/-- AddRequest::from_ber from src/parser.rs lines 451-460: APPLICATION[8]. -/
def AddRequest.from_ber (bytes : Input) : Except Err (Input × AddRequest) :=
  TaggedParser.from_ber_and_then Class.Application 8 bytes fun i => do
    let (i, entry) ← LdapDN.from_ber i
    let (i, attributes) ← parse_attribute_list i
    Except.ok (i, ⟨entry, attributes⟩)

/-- parse_ldap_add_response from src/parser.rs lines 463-465: APPLICATION[9]. -/
def parse_ldap_add_response (bytes : Input) : Except Err (Input × LdapResult) :=
  TaggedParser.from_ber_and_then Class.Application 9 bytes parse_ldap_result_content

/-- parse_ldap_del_request from src/parser.rs lines 468-474: APPLICATION[10],
an IMPLICIT primitive whose content bytes are the DN directly. -/
def parse_ldap_del_request (bytes : Input) : Except Err (Input × LdapDN) :=
  TaggedParser.from_ber_and_then Class.Application 10 bytes fun i =>
    if utf8Valid i then Except.ok ([], LdapDN.mk i)
    else Except.error (Err.failure .invalidDN)

/-- parse_ldap_del_response from src/parser.rs lines 477-479: APPLICATION[11]. -/
def parse_ldap_del_response (bytes : Input) : Except Err (Input × LdapResult) :=
  TaggedParser.from_ber_and_then Class.Application 11 bytes parse_ldap_result_content

/-- ModDnRequest::from_ber from src/parser.rs lines 486-507: APPLICATION[12]
with an optional newSuperior [0] whose content bytes are the DN directly. -/
def ModDnRequest.from_ber (bytes : Input) : Except Err (Input × ModDnRequest) :=
  TaggedParser.from_ber_and_then Class.Application 12 bytes fun i => do
    let (i, entry) ← LdapDN.from_ber i
    let (i, newrdn) ← RelativeLdapDN.from_ber i
    let (i, deleteoldrdn) ← bool_from_ber i
    let (i, newsuperior) ← OptTaggedParser.parse_ber Class.ContextSpecific 0 i
      (fun data =>
        if utf8Valid data then Except.ok ([], LdapDN.mk data)
        else Except.error (Err.failure .invalidDN))
    Except.ok (i, ⟨entry, newrdn, deleteoldrdn, newsuperior⟩)

/-- parse_ldap_moddn_response from src/parser.rs lines 510-512: APPLICATION[13]. -/
def parse_ldap_moddn_response (bytes : Input) : Except Err (Input × LdapResult) :=
  TaggedParser.from_ber_and_then Class.Application 13 bytes parse_ldap_result_content

/-- CompareRequest::from_ber from src/parser.rs lines 517-526: APPLICATION[14]. -/
def CompareRequest.from_ber (bytes : Input) : Except Err (Input × CompareRequest) :=
  TaggedParser.from_ber_and_then Class.Application 14 bytes fun i => do
    let (i, entry) ← LdapDN.from_ber i
    let (i, ava) ← AttributeValueAssertion.from_ber i
    Except.ok (i, ⟨entry, ava⟩)

/-- parse_ldap_compare_response from src/parser.rs lines 529-531: APPLICATION[15]. -/
def parse_ldap_compare_response (bytes : Input) : Except Err (Input × LdapResult) :=
  TaggedParser.from_ber_and_then Class.Application 15 bytes parse_ldap_result_content

/-- parse_ldap_abandon_request from src/parser.rs lines 534-538: an IMPLICIT
APPLICATION[16] primitive whose content bytes are an unwrapped
two's-complement big-endian u32 (asn1-rs
`TaggedValue::<u32, _, Implicit, APPLICATION, 16>::from_ber`). -/
def parse_ldap_abandon_request (bytes : Input) : Except Err (Input × MessageID) := do
  let (rem, (hdr, data)) ← Any.from_ber bytes
  let _ ← assertClass Class.Application hdr
  let _ ← assertTag 16 hdr
  let _ ← assertPrimitive hdr
  let v ← bytes_to_uint 4 data
  Except.ok (rem, MessageID.mk v)

/-- parse_ldap_search_result_ref from src/parser.rs lines 542-549:
APPLICATION[19] wrapping one-or-more URI strings. -/
def parse_ldap_search_result_ref (bytes : Input) : Except Err (Input × List LdapString) :=
  TaggedParser.from_ber_and_then Class.Application 19 bytes fun i =>
    many1 (completeC parse_ldap_uri) i

/-- ExtendedRequest::from_ber from src/parser.rs lines 554-572:
APPLICATION[23], a mandatory requestName [0] (content bytes as OID string)
and optional requestValue [1]. -/
def ExtendedRequest.from_ber (bytes : Input) : Except Err (Input × ExtendedRequest) :=
  TaggedParser.from_ber_and_then Class.Application 23 bytes fun i => do
    let (i, request_name) ← TaggedParser.from_ber_and_then Class.ContextSpecific 0 i
      (fun data =>
        if utf8Valid data then Except.ok ([], LdapOID.mk data)
        else Except.error (Err.failure .invalidDN))
    let (i, request_value) ← OptTaggedParser.parse_ber Class.ContextSpecific 1 i
      (fun data => Except.ok ([], data))
    Except.ok (i, ⟨request_name, request_value⟩)

/-- ExtendedResponse::from_ber from src/parser.rs lines 578-598:
APPLICATION[24], LDAPResult fields then optional responseName [10] and
responseValue [11]. -/
def ExtendedResponse.from_ber (bytes : Input) : Except Err (Input × ExtendedResponse) :=
  TaggedParser.from_ber_and_then Class.Application 24 bytes fun i => do
    let (i, result) ← parse_ldap_result_content i
    let (i, response_name) ← OptTaggedParser.parse_ber Class.ContextSpecific 10 i
      (fun data =>
        if utf8Valid data then Except.ok ([], LdapOID.mk data)
        else Except.error (Err.failure .invalidDN))
    let (i, response_value) ← OptTaggedParser.parse_ber Class.ContextSpecific 11 i
      (fun data => Except.ok ([], data))
    Except.ok (i, ⟨result, response_name, response_value⟩)

/-- IntermediateResponse::from_ber from src/parser.rs lines 603-621:
APPLICATION[25], optional responseName [0] and responseValue [1]. -/
def IntermediateResponse.from_ber (bytes : Input) : Except Err (Input × IntermediateResponse) :=
  TaggedParser.from_ber_and_then Class.Application 25 bytes fun i => do
    let (i, response_name) ← OptTaggedParser.parse_ber Class.ContextSpecific 0 i
      (fun data =>
        if utf8Valid data then Except.ok ([], LdapOID.mk data)
        else Except.error (Err.failure .invalidDN))
    let (i, response_value) ← OptTaggedParser.parse_ber Class.ContextSpecific 1 i
      (fun data => Except.ok ([], data))
    Except.ok (i, ⟨response_name, response_value⟩)

/-- Control::from_ber from src/parser.rs lines 719-738: SEQUENCE of an OID,
an optional criticality BOOLEAN (default false) and an optional value. -/
def Control.from_ber (bytes : Input) : Except Err (Input × Control) :=
  Sequence.from_ber_and_then bytes fun i => do
    let (i, control_type) ← LdapOID.from_ber i
    let (i, maybe_critical) ← opt_bool_from_ber i
    let criticality := maybe_critical.getD false
    let (i, control_value) ← optC (completeC parse_ldap_octet_string_as_slice) i
    Except.ok (i, ⟨control_type, criticality, control_value⟩)

/-- The protocolOp dispatcher from the body of LdapMessage::from_ber
(src/parser.rs lines 234-269): peek the header of the next element and branch
on its tag number; tags outside {0..16, 19, 23, 24, 25} are
`InvalidMessageType`. -/
def protocolOpDispatch (i : Input) : Except Err (Input × ProtocolOp) := do
  let (_, header) ← Header.from_ber i
  (match header.tag with
  | 0 => pmap ProtocolOp.BindRequest BindRequest.from_ber i
  | 1 => pmap ProtocolOp.BindResponse BindResponse.from_ber i
  | 2 => parse_ldap_unbind_request i
  | 3 => pmap ProtocolOp.SearchRequest SearchRequest.from_ber i
  | 4 => pmap ProtocolOp.SearchResultEntry SearchResultEntry.from_ber i
  | 5 => pmap ProtocolOp.SearchResultDone parse_ldap_search_result_done i
  | 6 => pmap ProtocolOp.ModifyRequest ModifyRequest.from_ber i
  | 7 => pmap ProtocolOp.ModifyResponse parse_ldap_modify_response i
  | 8 => pmap ProtocolOp.AddRequest AddRequest.from_ber i
  | 9 => pmap ProtocolOp.AddResponse parse_ldap_add_response i
  | 10 => pmap ProtocolOp.DelRequest parse_ldap_del_request i
  | 11 => pmap ProtocolOp.DelResponse parse_ldap_del_response i
  | 12 => pmap ProtocolOp.ModDnRequest ModDnRequest.from_ber i
  | 13 => pmap ProtocolOp.ModDnResponse parse_ldap_moddn_response i
  | 14 => pmap ProtocolOp.CompareRequest CompareRequest.from_ber i
  | 15 => pmap ProtocolOp.CompareResponse parse_ldap_compare_response i
  | 16 => pmap ProtocolOp.AbandonRequest parse_ldap_abandon_request i
  | 19 => pmap ProtocolOp.SearchResultReference parse_ldap_search_result_ref i
  | 23 => pmap ProtocolOp.ExtendedRequest ExtendedRequest.from_ber i
  | 24 => pmap ProtocolOp.ExtendedResponse ExtendedResponse.from_ber i
  | 25 => pmap ProtocolOp.IntermediateResponse IntermediateResponse.from_ber i
  | _ => Except.error (Err.failure .invalidMessageType) :
    Except Err (Input × ProtocolOp))

/-- LdapMessage::from_ber from src/parser.rs lines 230-280: the outer
SEQUENCE holding messageID, the protocolOp CHOICE and the optional
controls [0]. -/
def LdapMessage.from_ber (bytes : Input) : Except Err (Input × LdapMessage) :=
  Sequence.from_ber_and_then bytes fun i => do
    let (i, message_id) ← MessageID.from_ber i
    let (i, protocol_op) ← protocolOpDispatch i
    let (i, controls) ← OptTaggedParser.parse_ber Class.ContextSpecific 0 i
      (fun j => many0 (completeC Control.from_ber) j)
    Except.ok (i, ⟨message_id, protocol_op, controls⟩)

/-- parse_ldap_message from src/parser.rs lines 286-289 (deprecated alias of
the FromBer impl; the fuzz target's entry point). -/
def parse_ldap_message : Input → Except Err (Input × LdapMessage) := LdapMessage.from_ber

/-- parse_ldap_messages from src/parser.rs lines 293-297: one-or-more
messages. -/
def parse_ldap_messages (i : Input) : Except Err (Input × List LdapMessage) :=
  many1 (completeC LdapMessage.from_ber) i

-- ---------------------------------------------------------------------------
-- Theorems
-- ---------------------------------------------------------------------------

deriving instance DecidableEq for Except

/-- Bind of a successful Except result. -/
theorem ebind_ok {α β : Type} (a : α) (f : α → Except Err β) :
    (Except.ok a >>= f) = f a := rfl

/-- A successful bind factors through a successful first component. -/
theorem ebind_ok_elim {α β : Type} {p : Except Err α} {f : α → Except Err β} {y : β}
    (h : (p >>= f) = Except.ok y) : ∃ x, p = Except.ok x ∧ f x = Except.ok y := by
  cases p with
  | error e => simp [Bind.bind, Except.bind] at h
  | ok x => exact ⟨x, rfl, h⟩

/-- A successful tagged-and-then parse factors through a content TLV of the
asserted class and tag. -/
theorem tagged_and_then_ok {α : Type} {cls tagv : Nat} {bytes rem : Input}
    {op : Input → Except Err (Input × α)} {v : α}
    (h : TaggedParser.from_ber_and_then cls tagv bytes op = Except.ok (rem, v)) :
    ∃ hdr data rem2, Any.from_ber bytes = Except.ok (rem, (hdr, data))
      ∧ hdr.cls = cls ∧ hdr.tag = tagv ∧ op data = Except.ok (rem2, v) := by
  unfold TaggedParser.from_ber_and_then at h
  obtain ⟨⟨r1, hdr, data⟩, hAny, h⟩ := ebind_ok_elim h
  obtain ⟨u1, hc, h⟩ := ebind_ok_elim h
  obtain ⟨u2, ht, h⟩ := ebind_ok_elim h
  obtain ⟨⟨r2, w⟩, hop, h⟩ := ebind_ok_elim h
  have hcls : hdr.cls = cls := by
    by_cases hx : hdr.cls = cls
    · exact hx
    · simp [assertClass, hx] at hc
  have htag : hdr.tag = tagv := by
    by_cases hx : hdr.tag = tagv
    · exact hx
    · simp [assertTag, hx] at ht
  cases h
  exact ⟨hdr, data, r2, hAny, hcls, htag, hop⟩

/-- Bind of a failed Except result. -/
theorem ebind_err {α β : Type} (e : Err) (f : α → Except Err β) :
    ((Except.error e : Except Err α) >>= f) = Except.error e := rfl

/-- A header whose declared definite length exceeds the remaining bytes makes
`Any::from_ber` report exactly the number of missing bytes. -/
theorem any_short {i r : Input} {hdr : Header} {l : Nat}
    (h : Header.from_ber i = Except.ok (r, hdr)) (hl : hdr.len = BerLength.definite l)
    (hs : r.length < l) :
    Any.from_ber i = Except.error (Err.incomplete (some (l - r.length))) := by
  simp [Any.from_ber, h, ebind_ok, ebind_err, hl, takeS, hs]

/-- C4: an input whose (first) BER header declares a definite length larger
than the bytes remaining after the header fails with a short-input error of
exactly declared - available missing bytes — for the generic content reader,
for decode_message (LdapMessage::from_ber, where the content is taken before
the SEQUENCE tag is even checked), and for the AuthenticationChoice Simple
branch (tag 0), which takes the declared number of bytes verbatim. -/
theorem declared_length_short_input {i r : Input} {hdr : Header} {l : Nat}
    (h : Header.from_ber i = Except.ok (r, hdr)) (hl : hdr.len = BerLength.definite l)
    (hs : r.length < l) :
    Any.from_ber i = Except.error (Err.incomplete (some (l - r.length)))
    ∧ LdapMessage.from_ber i = Except.error (Err.incomplete (some (l - r.length)))
    ∧ (hdr.tag = 0 → AuthenticationChoice.from_ber i =
        Except.error (Err.incomplete (some (l - r.length)))) := by
  have ha := any_short h hl hs
  refine ⟨ha, ?_, ?_⟩
  · simp [LdapMessage.from_ber, Sequence.from_ber_and_then, ha, ebind_err]
  · intro ht
    simp [AuthenticationChoice.from_ber, h, ebind_ok, ebind_err, ht, hl, takeS, hs]

/-- Witness for C4: a SEQUENCE-less context-tagged header declaring 5 content
bytes with only 1 available reports 4 missing bytes through every cited
entry point. -/
theorem declared_length_short_input_witness :
    LdapMessage.from_ber [0x80, 5, 2] = Except.error (Err.incomplete (some 4))
    ∧ AuthenticationChoice.from_ber [0x80, 5, 2] = Except.error (Err.incomplete (some 4)) := by
  have h := @declared_length_short_input [0x80, 5, 2] [2]
    ⟨2, false, 0, BerLength.definite 5⟩ 5 rfl rfl (by decide)
  exact ⟨h.2.1, h.2.2 rfl⟩

/-- C7: AuthenticationChoice decoding takes the content bytes verbatim as
Simple for context tag 0, decodes SaslCredentials for tag 3, and fails with
InvalidAuthenticationType for every other tag value. -/
theorem authentication_choice_spec {i r : Input} {hdr : Header}
    (h : Header.from_ber i = Except.ok (r, hdr)) :
    (∀ l, hdr.tag = 0 → hdr.len = BerLength.definite l → l ≤ r.length →
      AuthenticationChoice.from_ber i =
        Except.ok (r.drop l, AuthenticationChoice.Simple (r.take l)))
    ∧ (hdr.tag = 3 → ∀ rem v, AuthenticationChoice.from_ber i = Except.ok (rem, v) →
        ∃ c, v = AuthenticationChoice.Sasl c)
    ∧ (hdr.tag ≠ 0 → hdr.tag ≠ 3 →
        AuthenticationChoice.from_ber i =
          Except.error (Err.failure LdapError.invalidAuthenticationType)) := by
  refine ⟨?_, ?_, ?_⟩
  · intro l ht hl hle
    simp [AuthenticationChoice.from_ber, h, ebind_ok, ht, hl, takeS, Nat.not_lt.mpr hle]
  · intro ht rem v hv
    simp [AuthenticationChoice.from_ber, h, ebind_ok, ht, pmap] at hv
    rcases hp : parse_sasl_credentials r with e | ⟨r2, c⟩ <;> simp [hp] at hv
    exact ⟨c, hv.2.symm⟩
  · intro h0 h3
    rcases hdr with ⟨c, k, t, len⟩
    simp only at h0 h3
    rcases t with _ | _ | _ | _ | t
    · exact absurd rfl h0
    · simp [AuthenticationChoice.from_ber, h, ebind_ok]
    · simp [AuthenticationChoice.from_ber, h, ebind_ok]
    · exact absurd rfl h3
    · simp [AuthenticationChoice.from_ber, h, ebind_ok]

/-- Witness for C7: the theorem applied at a tag-0 input (Simple, bytes
verbatim), a tag-3 input (Sasl) and a tag-1 input (error). -/
theorem authentication_choice_spec_witness :
    AuthenticationChoice.from_ber [0x80, 2, 7, 8] =
      Except.ok ([], AuthenticationChoice.Simple [7, 8])
    ∧ (∃ c, AuthenticationChoice.Sasl ⟨⟨[]⟩, some []⟩ = AuthenticationChoice.Sasl c)
    ∧ AuthenticationChoice.from_ber [0x81, 0] =
        Except.error (Err.failure LdapError.invalidAuthenticationType) := by
  refine ⟨?_, ?_, ?_⟩
  · have h := @authentication_choice_spec [0x80, 2, 7, 8] [7, 8]
      ⟨2, false, 0, BerLength.definite 2⟩ rfl
    exact h.1 2 rfl rfl (by decide)
  · have h := @authentication_choice_spec [0xA3, 4, 4, 0, 4, 0] [4, 0, 4, 0]
      ⟨2, true, 3, BerLength.definite 4⟩ rfl
    exact h.2.1 rfl [] (AuthenticationChoice.Sasl ⟨⟨[]⟩, some []⟩) rfl
  · have h := @authentication_choice_spec [0x81, 0] []
      ⟨2, false, 1, BerLength.definite 0⟩ rfl
    exact h.2.2 (by decide) (by decide)

/-- A successful verify factors through a successful inner parse whose output
satisfies the predicate. -/
theorem verifyC_ok_elim {α : Type} {p : Input → Except Err (Input × α)} {pred : α → Bool}
    {i r : Input} {v : α} (h : verifyC p pred i = Except.ok (r, v)) :
    pred v = true ∧ p i = Except.ok (r, v) := by
  unfold verifyC at h
  rcases hp : p i with e | ⟨r2, w⟩ <;> simp [hp] at h
  by_cases hv : pred w
  · simp [hv] at h
    rcases h with ⟨h1, h2⟩
    subst h1; subst h2
    exact ⟨hv, rfl⟩
  · simp [hv] at h

/-- C6: BindRequest decoding accepts a version INTEGER in 0..=127 (including
0) and rejects every version ≥ 128 with an error: any successful decode has
version < 128 and that version is exactly the u8 INTEGER decoded at the head
of the APPLICATION[0] content; every canonical one-byte encoding of
v ∈ 0..=127 decodes (the rest of the request held fixed) to version v, and
every two-byte encoding of 128 + b (b ∈ 0..=127, covering 128..=255)
is rejected by the < 128 verification. -/
theorem bind_request_version_spec :
    (∀ i rem req, BindRequest.from_ber i = Except.ok (rem, req) →
      req.version < 128 ∧ ∃ hdr data j, Any.from_ber i = Except.ok (rem, (hdr, data))
        ∧ u8_from_ber data = Except.ok (j, req.version))
    ∧ (∀ v : Fin 128,
        BindRequest.from_ber [0x60, 7, 0x02, 1, v.val, 0x04, 0, 0x80, 0] =
          Except.ok ([], ⟨v.val, ⟨[]⟩, AuthenticationChoice.Simple []⟩))
    ∧ (∀ b : Fin 128,
        BindRequest.from_ber [0x60, 8, 0x02, 2, 0, 128 + b.val, 0x04, 0, 0x80, 0] =
          Except.error (Err.failure (.ber (.nomError .verifyK)))) := by
  refine ⟨?_, by decide, by decide⟩
  intro i rem req h
  obtain ⟨hdr, data, rem2, hAny, hcls, htag, hop⟩ := tagged_and_then_ok h
  obtain ⟨⟨i1, version⟩, hver, hop⟩ := ebind_ok_elim hop
  obtain ⟨hpred, hu8⟩ := verifyC_ok_elim hver
  obtain ⟨⟨i2, name⟩, _, hop⟩ := ebind_ok_elim hop
  obtain ⟨⟨i3, auth⟩, _, hop⟩ := ebind_ok_elim hop
  cases hop
  exact ⟨of_decide_eq_true hpred, hdr, data, i1, hAny, hu8⟩

/-- Witness for C6: version 0 accepted with version field 0, wire value 128
rejected, and the invariant instantiated at the decoded request. -/
theorem bind_request_version_spec_witness :
    BindRequest.from_ber [0x60, 7, 0x02, 1, 0, 0x04, 0, 0x80, 0] =
      Except.ok ([], ⟨0, ⟨[]⟩, AuthenticationChoice.Simple []⟩)
    ∧ BindRequest.from_ber [0x60, 8, 0x02, 2, 0, 128, 0x04, 0, 0x80, 0] =
        Except.error (Err.failure (.ber (.nomError .verifyK)))
    ∧ (⟨0, ⟨[]⟩, AuthenticationChoice.Simple []⟩ : BindRequest).version < 128 := by
  have hb := bind_request_version_spec.2.1 ⟨0, by decide⟩
  refine ⟨hb, bind_request_version_spec.2.2 ⟨0, by decide⟩, ?_⟩
  exact (bind_request_version_spec.1 _ _ _ hb).1

mutual

/-- The invariant of spec §3: every And and Or node of a Filter holds at
least one sub-filter, recursively. -/
def andOrNonEmpty : Filter → Bool
  | .And l => !l.isEmpty && andOrNonEmptyList l
  | .Or l => !l.isEmpty && andOrNonEmptyList l
  | .Not f => andOrNonEmpty f
  | _ => true

/-- The same invariant over a list of sub-filters. -/
def andOrNonEmptyList : List Filter → Bool
  | [] => true
  | f :: r => andOrNonEmpty f && andOrNonEmptyList r

end

/-- Membership characterisation of the list form of the invariant. -/
theorem andOrNonEmptyList_iff {l : List Filter} :
    andOrNonEmptyList l = true ↔ ∀ x ∈ l, andOrNonEmpty x = true := by
  induction l with
  | nil => simp [andOrNonEmptyList]
  | cons f r ih => simp [andOrNonEmptyList, ih]

/-- A successful complete parse is a successful inner parse. -/
theorem completeC_ok_elim {α : Type} {p : Input → Except Err (Input × α)} {i r : Input} {v : α}
    (h : completeC p i = Except.ok (r, v)) : p i = Except.ok (r, v) := by
  unfold completeC at h
  rcases hp : p i with e | w
  · rcases e with e | n <;> simp [hp] at h
  · simpa [hp] using h

/-- Every element a many-loop returns was produced by the element parser on
some input no longer than the loop's input. -/
theorem manyLoop_mem {α : Type} {fuel : Nat} {k : ErrorKind}
    {p : Input → Except Err (Input × α)} {i rem : Input} {l : List α}
    (h : manyLoop fuel k p i = Except.ok (rem, l)) :
    ∀ x ∈ l, ∃ j r, j.length ≤ i.length ∧ p j = Except.ok (r, x) := by
  induction fuel generalizing i rem l with
  | zero => simp [manyLoop, unkRes] at h
  | succ fuel ih =>
    unfold manyLoop at h
    rcases hp : p i with e | ⟨i1, x⟩
    · rcases e with e | n <;> simp [hp] at h
      rcases h with ⟨h1, h2⟩
      subst h2
      simp
    · simp only [hp] at h
      by_cases hlt : i1.length < i.length
      · simp only [if_pos hlt] at h
        rcases hm : manyLoop fuel k p i1 with e | ⟨i2, xs⟩ <;> simp [hm] at h
        rcases h with ⟨h1, h2⟩
        subst h2
        intro y hy
        rcases List.mem_cons.mp hy with rfl | htl
        · exact ⟨i, i1, le_rfl, hp⟩
        · obtain ⟨j, r, hjl, hpj⟩ := ih hm y htl
          exact ⟨j, r, hjl.trans hlt.le, hpj⟩
      · simp [if_neg hlt] at h

/-- A successful many1 returns a non-empty list whose elements the element
parser produced on inputs no longer than the loop's input. -/
theorem many1_ok_elim {α : Type} {p : Input → Except Err (Input × α)} {i rem : Input} {l : List α}
    (h : many1 p i = Except.ok (rem, l)) :
    l ≠ [] ∧ ∀ x ∈ l, ∃ j r, j.length ≤ i.length ∧ p j = Except.ok (r, x) := by
  unfold many1 at h
  rcases hp : p i with e | ⟨i1, x⟩
  · rcases e with e | n <;> simp [hp] at h
  · simp only [hp] at h
    by_cases hlt : i1.length < i.length
    · simp only [if_pos hlt] at h
      rcases hm : manyLoop (i1.length + 1) .many1K p i1 with e | ⟨i2, xs⟩ <;> simp [hm] at h
      rcases h with ⟨h1, h2⟩
      subst h2
      refine ⟨by simp, ?_⟩
      intro y hy
      rcases List.mem_cons.mp hy with rfl | htl
      · exact ⟨i, i1, le_rfl, hp⟩
      · obtain ⟨j, r, hjl, hpj⟩ := manyLoop_mem hm y htl
        exact ⟨j, r, hjl.trans hlt.le, hpj⟩
    · simp [if_neg hlt] at h

/-- A successful container parse factors through a definite-length content
slice handed to the inner decoder. -/
theorem container_ok_elim {α : Type} {f : Input → Header → Except Err (Input × α)}
    {i rem : Input} {v : α} (h : parse_ber_container f i = Except.ok (rem, v)) :
    ∃ r0 hdr l r2, Header.from_ber i = Except.ok (r0, hdr) ∧ hdr.len = BerLength.definite l
      ∧ l ≤ r0.length ∧ rem = r0.drop l ∧ f (r0.take l) hdr = Except.ok (r2, v) := by
  unfold parse_ber_container at h
  obtain ⟨⟨r0, hdr⟩, hh, h⟩ := ebind_ok_elim h
  rcases hlen : hdr.len with l | _
  · simp only [hlen] at h
    obtain ⟨⟨r1, content⟩, htk, h⟩ := ebind_ok_elim h
    obtain ⟨⟨r2, w⟩, hf, h⟩ := ebind_ok_elim h
    cases h
    unfold takeS at htk
    by_cases hlt : r0.length < l
    · simp [hlt] at htk
    · simp only [if_neg hlt, Except.ok.injEq, Prod.mk.injEq] at htk
      obtain ⟨h1, h2⟩ := htk
      refine ⟨r0, hdr, l, r2, hh, hlen, Nat.le_of_not_lt hlt, h1.symm, ?_⟩
      rw [h2]
      exact hf
  · simp [hlen] at h

/-- A successful implicit-tagged parse factors through content with the
asserted tag number. -/
theorem tagged_implicit_ok_elim {α : Type} {t : Nat}
    {f : Input → Header → Except Err (Input × α)} {i rem : Input} {v : α}
    (h : parse_ber_tagged_implicit_g t f i = Except.ok (rem, v)) :
    ∃ r0 hdr l r2, Header.from_ber i = Except.ok (r0, hdr) ∧ hdr.len = BerLength.definite l
      ∧ l ≤ r0.length ∧ rem = r0.drop l ∧ hdr.tag = t
      ∧ f (r0.take l) hdr = Except.ok (r2, v) := by
  obtain ⟨r0, hdr, l, r2, hh, hlen, hle, hrem, hf⟩ := container_ok_elim h
  obtain ⟨u, ht, hf⟩ := ebind_ok_elim hf
  have htag : hdr.tag = t := by
    by_cases hx : hdr.tag = t
    · exact hx
    · simp [assertTag, hx] at ht
  exact ⟨r0, hdr, l, r2, hh, hlen, hle, hrem, htag, hf⟩

/-- A successful mapped parse produces a value in the image of the mapping. -/
theorem pmap_ok_elim {α β : Type} {g : α → β} {p : Input → Except Err (Input × α)}
    {i r : Input} {v : β} (h : pmap g p i = Except.ok (r, v)) : ∃ w, v = g w := by
  unfold pmap at h
  rcases hp : p i with e | ⟨r2, w⟩ <;> simp [hp] at h
  exact ⟨w, h.2.symm⟩

/-- Every Filter a successful parse_ldap_filter run produces satisfies the
non-empty And/Or invariant, at every fuel. -/
theorem parse_filter_invariant :
    ∀ (fuel : Nat) (i rem : Input) (f : Filter),
      parse_ldap_filter fuel i = Except.ok (rem, f) → andOrNonEmpty f = true := by
  intro fuel
  induction fuel with
  | zero => intro i rem f h; simp [parse_ldap_filter, unkRes] at h
  | succ fuel ih =>
    intro i rem f h
    unfold parse_ldap_filter at h
    obtain ⟨⟨r0, hdr⟩, hh, h⟩ := ebind_ok_elim h
    rcases hdr with ⟨c, k, t, len⟩
    rcases t with _ | _ | _ | _ | _ | _ | _ | _ | _ | _ | t
    · -- tag 0: And
      obtain ⟨⟨i2, subs⟩, hs, h⟩ := ebind_ok_elim h
      cases h
      obtain ⟨r1, hdr1, l, r2, _, _, _, _, _, hf⟩ := tagged_implicit_ok_elim hs
      obtain ⟨hne, hmem⟩ := many1_ok_elim hf
      have hall : ∀ x ∈ subs, andOrNonEmpty x = true := by
        intro x hx
        obtain ⟨j, r, _, hpj⟩ := hmem x hx
        exact ih j r x (completeC_ok_elim hpj)
      simp [andOrNonEmpty, hne, andOrNonEmptyList_iff.mpr hall]
    · -- tag 1: Or
      obtain ⟨⟨i2, subs⟩, hs, h⟩ := ebind_ok_elim h
      cases h
      obtain ⟨r1, hdr1, l, r2, _, _, _, _, _, hf⟩ := tagged_implicit_ok_elim hs
      obtain ⟨hne, hmem⟩ := many1_ok_elim hf
      have hall : ∀ x ∈ subs, andOrNonEmpty x = true := by
        intro x hx
        obtain ⟨j, r, _, hpj⟩ := hmem x hx
        exact ih j r x (completeC_ok_elim hpj)
      simp [andOrNonEmpty, hne, andOrNonEmptyList_iff.mpr hall]
    · -- tag 2: Not
      obtain ⟨⟨i2, sub⟩, hs, h⟩ := ebind_ok_elim h
      cases h
      obtain ⟨r1, hdr1, l, r2, _, _, _, _, _, hf⟩ := tagged_implicit_ok_elim hs
      simpa [andOrNonEmpty] using ih _ _ _ hf
    · -- tag 3: EqualityMatch
      obtain ⟨r1, hdr1, l, r2, _, _, _, _, _, hf⟩ := tagged_implicit_ok_elim h
      obtain ⟨w, rfl⟩ := pmap_ok_elim hf
      simp [andOrNonEmpty]
    · -- tag 4: Substrings
      obtain ⟨r1, hdr1, l, r2, _, _, _, _, _, hf⟩ := tagged_implicit_ok_elim h
      obtain ⟨w, rfl⟩ := pmap_ok_elim hf
      simp [andOrNonEmpty]
    · -- tag 5: GreaterOrEqual
      obtain ⟨r1, hdr1, l, r2, _, _, _, _, _, hf⟩ := tagged_implicit_ok_elim h
      obtain ⟨w, rfl⟩ := pmap_ok_elim hf
      simp [andOrNonEmpty]
    · -- tag 6: LessOrEqual
      obtain ⟨r1, hdr1, l, r2, _, _, _, _, _, hf⟩ := tagged_implicit_ok_elim h
      obtain ⟨w, rfl⟩ := pmap_ok_elim hf
      simp [andOrNonEmpty]
    · -- tag 7: Present
      obtain ⟨r1, hdr1, l, r2, _, _, _, _, _, hf⟩ := tagged_implicit_ok_elim h
      by_cases hu : utf8Valid (r1.take l)
      · simp only [hu, if_true, Except.ok.injEq, Prod.mk.injEq] at hf
        rcases hf with ⟨-, rfl⟩
        simp [andOrNonEmpty]
      · simp [hu] at hf
    · -- tag 8: ApproxMatch
      obtain ⟨r1, hdr1, l, r2, _, _, _, _, _, hf⟩ := tagged_implicit_ok_elim h
      obtain ⟨w, rfl⟩ := pmap_ok_elim hf
      simp [andOrNonEmpty]
    · -- tag 9: ExtensibleMatch
      obtain ⟨r1, hdr1, l, r2, _, _, _, _, _, hf⟩ := tagged_implicit_ok_elim h
      obtain ⟨w, rfl⟩ := pmap_ok_elim hf
      simp [andOrNonEmpty]
    · -- tags ≥ 10: InvalidFilterType
      simp at h

/-- C8: every Filter produced by a successful decode satisfies the invariant
that And and Or nodes hold at least one sub-filter, and an And[0] or Or[1]
element with empty content is rejected with an error (nom's Many1 kind, from
the mandatory first child). -/
theorem filter_and_or_nonempty_spec :
    (∀ fuel i rem f, parse_ldap_filter fuel i = Except.ok (rem, f) →
      andOrNonEmpty f = true)
    ∧ (∀ i r0 hdr, Header.from_ber i = Except.ok (r0, hdr) →
        (hdr.tag = 0 ∨ hdr.tag = 1) → hdr.len = BerLength.definite 0 →
        ∀ fuel, parse_ldap_filter (fuel + 1) i =
          Except.error (Err.failure (LdapError.nomError ErrorKind.many1K))) := by
  refine ⟨parse_filter_invariant, ?_⟩
  intro i r0 hdr hh htag hlen fuel
  have hfail : ∃ e, completeC (parse_ldap_filter fuel) [] = Except.error (Err.failure e) := by
    cases fuel with
    | zero => exact ⟨.unknown, rfl⟩
    | succ g => exact ⟨.nomError .completeK, rfl⟩
  obtain ⟨e, he⟩ := hfail
  have hmany : many1 (completeC (parse_ldap_filter fuel)) [] =
      Except.error (Err.failure (LdapError.nomError ErrorKind.many1K)) := by
    simp [many1, he]
  rcases htag with h0 | h1
  · simp [parse_ldap_filter, ebind_ok, ebind_err, ber_read_element_header, hh, h0,
      parse_ber_tagged_implicit_g, parse_ber_container, hlen, takeS, assertTag, hmany]
  · simp [parse_ldap_filter, ebind_ok, ebind_err, ber_read_element_header, hh, h1,
      parse_ber_tagged_implicit_g, parse_ber_container, hlen, takeS, assertTag, hmany]

/-- Witness for C8: a one-child And decodes and satisfies the invariant; the
empty And encoding A0 00 is rejected with the Many1 error. -/
theorem filter_and_or_nonempty_spec_witness :
    andOrNonEmpty (Filter.And [Filter.Present ⟨[0x61]⟩]) = true
    ∧ parse_ldap_filter 3 [0xA0, 0] =
        Except.error (Err.failure (LdapError.nomError ErrorKind.many1K)) := by
  constructor
  · exact filter_and_or_nonempty_spec.1 6 [0xA0, 3, 0x87, 1, 0x61] []
      (Filter.And [Filter.Present ⟨[0x61]⟩]) rfl
  · exact filter_and_or_nonempty_spec.2 [0xA0, 0] [] ⟨2, true, 0, BerLength.definite 0⟩
      rfl (Or.inl rfl) rfl 2

/-- The application tags the protocolOp dispatcher accepts (spec §3 table). -/
def allowedProtocolOpTags : List Nat :=
  [0, 1, 2, 3, 4, 5, 6, 7, 8, 9, 10, 11, 12, 13, 14, 15, 16, 19, 23, 24, 25]

/-- The context tag of each Filter variant, per the Filter CHOICE table of
spec §3 (And[0], Or[1], Not[2], EqualityMatch[3], Substrings[4],
GreaterOrEqual[5], LessOrEqual[6], Present[7], ApproxMatch[8],
ExtensibleMatch[9]). -/
def filterTag : Filter → Nat
  | .And _ => 0
  | .Or _ => 1
  | .Not _ => 2
  | .EqualityMatch _ => 3
  | .Substrings _ => 4
  | .GreaterOrEqual _ => 5
  | .LessOrEqual _ => 6
  | .Present _ => 7
  | .ApproxMatch _ => 8
  | .ExtensibleMatch _ => 9

/-- A successful unbind parse always yields the UnbindRequest operation. -/
theorem unbind_ok_op {bytes rem : Input} {op : ProtocolOp}
    (h : parse_ldap_unbind_request bytes = Except.ok (rem, op)) :
    op = ProtocolOp.UnbindRequest := by
  obtain ⟨hdr, data, r2, _, _, _, hop⟩ := tagged_and_then_ok h
  by_cases hd : data = []
  · simp [hd] at hop
    exact hop.2.symm
  · simp only [hd, if_false] at hop
    obtain ⟨⟨ru, uu⟩, _, hop⟩ := ebind_ok_elim hop
    cases hop
    rfl

/-- A successful protocolOp dispatch yields the variant whose application tag
(per ProtocolOp::tag) is the peeked header tag. -/
theorem dispatch_ok_tag {i r0 rem : Input} {hdr : Header} {op : ProtocolOp}
    (hh : Header.from_ber i = Except.ok (r0, hdr))
    (hd : protocolOpDispatch i = Except.ok (rem, op)) :
    ProtocolOp.tag op = hdr.tag ∧ hdr.tag ∈ allowedProtocolOpTags := by
  unfold protocolOpDispatch at hd
  obtain ⟨⟨r0', hdr'⟩, hh', hd⟩ := ebind_ok_elim hd
  rw [hh] at hh'
  injection hh' with hh2
  injection hh2 with e1 e2
  subst e2
  rcases hdr with ⟨c, k, t, len⟩
  rcases t with _|_|_|_|_|_|_|_|_|_|_|_|_|_|_|_|_|_|_|_|_|_|_|_|_|_|t <;>
    first
    | (obtain ⟨w, rfl⟩ := pmap_ok_elim hd
       exact ⟨rfl, by simp [allowedProtocolOpTags]⟩)
    | (rw [unbind_ok_op hd]
       exact ⟨rfl, by simp [allowedProtocolOpTags]⟩)
    | exact Except.noConfusion hd

/-- A peeked tag outside the allowed set makes the dispatcher return
InvalidMessageType. -/
theorem dispatch_reject {i r0 : Input} {hdr : Header}
    (hh : Header.from_ber i = Except.ok (r0, hdr))
    (hmem : hdr.tag ∉ allowedProtocolOpTags) :
    protocolOpDispatch i = Except.error (Err.failure LdapError.invalidMessageType) := by
  unfold protocolOpDispatch
  simp only [hh, ebind_ok]
  rcases hdr with ⟨c, k, t, len⟩
  rcases t with _|_|_|_|_|_|_|_|_|_|_|_|_|_|_|_|_|_|_|_|_|_|_|_|_|_|t <;>
    first
    | rfl
    | exact absurd (by simp [allowedProtocolOpTags]) hmem

/-- A successful filter parse yields the variant whose context tag (per the
§3 table) is the peeked header tag, which is below 10. -/
theorem filter_ok_tag {fuel : Nat} {i r0 rem : Input} {hdr : Header} {f : Filter}
    (hh : Header.from_ber i = Except.ok (r0, hdr))
    (h : parse_ldap_filter fuel i = Except.ok (rem, f)) :
    filterTag f = hdr.tag ∧ hdr.tag < 10 := by
  cases fuel with
  | zero => simp [parse_ldap_filter, unkRes] at h
  | succ fuel =>
    unfold parse_ldap_filter at h
    obtain ⟨⟨r0', hdr'⟩, hh', h⟩ := ebind_ok_elim h
    simp only [ber_read_element_header] at hh'
    rw [hh] at hh'
    injection hh' with hh2
    injection hh2 with e1 e2
    subst e2
    rcases hdr with ⟨c, k, t, len⟩
    rcases t with _|_|_|_|_|_|_|_|_|_|t <;>
      first
      | (obtain ⟨⟨i2, subs⟩, hs, h⟩ := ebind_ok_elim h
         cases h
         exact ⟨rfl, by simp⟩)
      | (obtain ⟨r1, hdr1, l, r2, _, _, _, _, _, hf⟩ := tagged_implicit_ok_elim h
         obtain ⟨w, rfl⟩ := pmap_ok_elim hf
         exact ⟨rfl, by simp⟩)
      | (obtain ⟨r1, hdr1, l, r2, _, _, _, _, _, hf⟩ := tagged_implicit_ok_elim h
         by_cases hu : utf8Valid (r1.take l)
         · simp only [hu, if_true, Except.ok.injEq, Prod.mk.injEq] at hf
           rcases hf with ⟨-, rfl⟩
           exact ⟨rfl, by simp⟩
         · simp [hu] at hf)
      | exact Except.noConfusion h

/-- A peeked tag of 10 or more makes the filter decoder return
InvalidFilterType. -/
theorem filter_reject {i r0 : Input} {hdr : Header}
    (hh : Header.from_ber i = Except.ok (r0, hdr)) (h10 : 10 ≤ hdr.tag) :
    ∀ fuel, parse_ldap_filter (fuel + 1) i =
      Except.error (Err.failure LdapError.invalidFilterType) := by
  intro fuel
  unfold parse_ldap_filter
  simp only [ber_read_element_header, hh, ebind_ok]
  rcases hdr with ⟨c, k, t, len⟩
  rcases t with _|_|_|_|_|_|_|_|_|_|t <;>
    first
    | rfl
    | exact absurd h10 (by simp)

/-- C3: every allowed application tag in {0..16, 19, 23, 24, 25} decodes (on
success) to the ProtocolOp variant bearing exactly that tag, every
application tag outside the set yields InvalidMessageType, every Filter
context tag in {0..9} decodes (on success) to the Filter variant bearing
exactly that tag, and every other filter tag yields InvalidFilterType. -/
theorem tag_exhaustiveness :
    (∀ i r0 rem hdr op, Header.from_ber i = Except.ok (r0, hdr) →
      protocolOpDispatch i = Except.ok (rem, op) →
      ProtocolOp.tag op = hdr.tag ∧ hdr.tag ∈ allowedProtocolOpTags)
    ∧ (∀ i r0 hdr, Header.from_ber i = Except.ok (r0, hdr) →
      hdr.tag ∉ allowedProtocolOpTags →
      protocolOpDispatch i = Except.error (Err.failure LdapError.invalidMessageType))
    ∧ (∀ fuel i r0 rem hdr f, Header.from_ber i = Except.ok (r0, hdr) →
      parse_ldap_filter fuel i = Except.ok (rem, f) →
      filterTag f = hdr.tag ∧ hdr.tag < 10)
    ∧ (∀ fuel i r0 hdr, Header.from_ber i = Except.ok (r0, hdr) → 10 ≤ hdr.tag →
      parse_ldap_filter (fuel + 1) i =
        Except.error (Err.failure LdapError.invalidFilterType)) :=
  ⟨fun _ _ _ _ _ hh hd => dispatch_ok_tag hh hd,
   fun _ _ _ hh hm => dispatch_reject hh hm,
   fun _ _ _ _ _ _ hh h => filter_ok_tag hh h,
   fun fuel _ _ _ hh h10 => filter_reject hh h10 fuel⟩

/-- Witness for C3: tag 16 dispatches to AbandonRequest (tag 16), tag 17 is
InvalidMessageType, filter tag 7 decodes to Present (tag 7), filter tag 10 is
InvalidFilterType. -/
theorem tag_exhaustiveness_witness :
    ProtocolOp.tag (ProtocolOp.AbandonRequest ⟨5⟩) = 16
    ∧ protocolOpDispatch [0x51, 0] = Except.error (Err.failure LdapError.invalidMessageType)
    ∧ filterTag (Filter.Present ⟨[0x61]⟩) = 7
    ∧ parse_ldap_filter 2 [0x8A, 0] =
        Except.error (Err.failure LdapError.invalidFilterType) := by
  refine ⟨?_, ?_, ?_, ?_⟩
  · exact (tag_exhaustiveness.1 [0x50, 1, 5] [5] [] ⟨1, false, 16, BerLength.definite 1⟩
      (ProtocolOp.AbandonRequest ⟨5⟩) rfl rfl).1
  · exact tag_exhaustiveness.2.1 [0x51, 0] [] ⟨1, false, 17, BerLength.definite 0⟩
      rfl (by decide)
  · exact (tag_exhaustiveness.2.2.1 4 [0x87, 1, 0x61] [0x61] []
      ⟨2, false, 7, BerLength.definite 1⟩ (Filter.Present ⟨[0x61]⟩) rfl rfl).1
  · exact tag_exhaustiveness.2.2.2 1 [0x8A, 0] [] ⟨2, false, 10, BerLength.definite 0⟩
      rfl (by decide)

/-- Reading a header from a concrete identifier octet followed by a
short-form length octet. -/
theorem header_cons_short {b n : Nat} {rest : Input} (hb : b % 32 ≠ 31) (hn : n < 128) :
    Header.from_ber (b :: n :: rest) =
      Except.ok (rest, ⟨b / 64, b / 32 % 2 = 1, b % 32, BerLength.definite n⟩) := by
  simp [Header.from_ber, hb, hn, ebind_ok]

/-- Reading a TLV whose declared length is exactly the length of the body in
front of the trailing bytes. -/
theorem any_cons_exact {b : Nat} {body tail : Input}
    (hb : b % 32 ≠ 31) (hn : body.length < 128) :
    Any.from_ber (b :: body.length :: (body ++ tail)) =
      Except.ok (tail, (⟨b / 64, b / 32 % 2 = 1, b % 32, BerLength.definite body.length⟩, body)) := by
  have hnl : ¬ ((body ++ tail).length < body.length) := by simp
  simp [Any.from_ber, header_cons_short hb hn, ebind_ok, takeS, hnl,
    List.drop_left, List.take_left]

/-- A tagged parse over a short-form TLV laid out as identifier, length, body
and trailing bytes: the inner decoder runs on the body, its leftover is
discarded and the trailing bytes are returned. -/
theorem tagged_trailing_ok {α : Type} {cls tagv b : Nat} {body tail q : Input} {v : α}
    {inner : Input → Except Err (Input × α)}
    (hb : b % 32 ≠ 31) (hn : body.length < 128)
    (hc : b / 64 = cls) (ht : b % 32 = tagv)
    (hinner : inner body = Except.ok (q, v)) :
    TaggedParser.from_ber_and_then cls tagv (b :: body.length :: (body ++ tail)) inner =
      Except.ok (tail, v) := by
  simp [TaggedParser.from_ber_and_then, any_cons_exact hb hn, ebind_ok,
    assertClass, assertTag, hc, ht, hinner]

/-- An optional tagged field whose next TLV is well-formed but carries a
different class or tag is absent and leaves the input untouched. -/
theorem optTagged_no_match {α : Type} {cls tagv : Nat} {bytes refrest rdata : Input}
    {rhdr : Header} {op : Input → Except Err (Input × α)}
    (hany : Any.from_ber bytes = Except.ok (refrest, (rhdr, rdata)))
    (hmiss : ¬ (rhdr.cls = cls ∧ rhdr.tag = tagv)) :
    OptTaggedParser.parse_ber cls tagv bytes op = Except.ok (bytes, none) := by
  rcases bytes with _ | ⟨hb, rest⟩
  · simp [Any.from_ber, Header.from_ber, ebind_err] at hany
  · simp [OptTaggedParser.parse_ber, hany, ebind_ok, hmiss]

/-- C5: an optional referral [3] element present after diagnosticMessage in an
LDAPResult is consumed with the enclosing APPLICATION-tagged element and
discarded (not represented in the result), and decoding succeeds — for
SearchResultDone, ModifyResponse, AddResponse, DelResponse, ModDnResponse,
CompareResponse, BindResponse and ExtendedResponse. -/
theorem ldap_result_referral_discarded
    {flds ref tail refrest rdata : Input} {rhdr : Header} {res : LdapResult}
    (hres : parse_ldap_result_content (flds ++ ref) = Except.ok (ref, res))
    (href : Any.from_ber ref = Except.ok (refrest, (rhdr, rdata)))
    (_hcls : rhdr.cls = Class.ContextSpecific) (htag : rhdr.tag = 3)
    (hn : (flds ++ ref).length < 128) :
    parse_ldap_search_result_done (0x65 :: (flds ++ ref).length :: ((flds ++ ref) ++ tail)) =
      Except.ok (tail, res)
    ∧ parse_ldap_modify_response (0x67 :: (flds ++ ref).length :: ((flds ++ ref) ++ tail)) =
      Except.ok (tail, ⟨res⟩)
    ∧ parse_ldap_add_response (0x69 :: (flds ++ ref).length :: ((flds ++ ref) ++ tail)) =
      Except.ok (tail, res)
    ∧ parse_ldap_del_response (0x6B :: (flds ++ ref).length :: ((flds ++ ref) ++ tail)) =
      Except.ok (tail, res)
    ∧ parse_ldap_moddn_response (0x6D :: (flds ++ ref).length :: ((flds ++ ref) ++ tail)) =
      Except.ok (tail, res)
    ∧ parse_ldap_compare_response (0x6F :: (flds ++ ref).length :: ((flds ++ ref) ++ tail)) =
      Except.ok (tail, res)
    ∧ BindResponse.from_ber (0x61 :: (flds ++ ref).length :: ((flds ++ ref) ++ tail)) =
      Except.ok (tail, ⟨res, none⟩)
    ∧ ExtendedResponse.from_ber (0x78 :: (flds ++ ref).length :: ((flds ++ ref) ++ tail)) =
      Except.ok (tail, ⟨res, none, none⟩) := by
  have habsent : ∀ (t : Nat) (α : Type) (op : Input → Except Err (Input × α)), t ≠ 3 →
      OptTaggedParser.parse_ber Class.ContextSpecific t ref op = Except.ok (ref, none) := by
    intro t α op htne
    refine optTagged_no_match href ?_
    rintro ⟨-, h3⟩
    exact htne (h3 ▸ htag)
  refine ⟨?_, ?_, ?_, ?_, ?_, ?_, ?_, ?_⟩
  · exact tagged_trailing_ok (by decide) hn (by decide) (by decide) hres
  · exact tagged_trailing_ok (q := ref) (by decide) hn (by decide) (by decide)
      (by simp [hres, ebind_ok])
  · exact tagged_trailing_ok (by decide) hn (by decide) (by decide) hres
  · exact tagged_trailing_ok (by decide) hn (by decide) (by decide) hres
  · exact tagged_trailing_ok (by decide) hn (by decide) (by decide) hres
  · exact tagged_trailing_ok (by decide) hn (by decide) (by decide) hres
  · exact tagged_trailing_ok (q := ref) (by decide) hn (by decide) (by decide)
      (by simp [hres, ebind_ok, habsent 7 Input _ (by decide)])
  · exact tagged_trailing_ok (q := ref) (by decide) hn (by decide) (by decide)
      (by simp [hres, ebind_ok, habsent 10 LdapOID _ (by decide),
        habsent 11 Input _ (by decide)])

/-- Witness for C5: a minimal success LDAPResult followed by a concrete
referral [3] TLV decodes through ModifyResponse and BindResponse with the
referral consumed and absent from the result. -/
theorem ldap_result_referral_discarded_witness :
    parse_ldap_modify_response
        [0x67, 11, 0x0A, 1, 0, 4, 0, 4, 0, 0xA3, 2, 4, 0] =
      Except.ok ([], ⟨⟨⟨0⟩, ⟨[]⟩, ⟨[]⟩⟩⟩)
    ∧ BindResponse.from_ber
        [0x61, 11, 0x0A, 1, 0, 4, 0, 4, 0, 0xA3, 2, 4, 0] =
      Except.ok ([], ⟨⟨⟨0⟩, ⟨[]⟩, ⟨[]⟩⟩, none⟩) := by
  have h := @ldap_result_referral_discarded
    [0x0A, 1, 0, 4, 0, 4, 0] [0xA3, 2, 4, 0] []
    [] [4, 0] ⟨2, true, 3, BerLength.definite 2⟩
    ⟨⟨0⟩, ⟨[]⟩, ⟨[]⟩⟩ rfl rfl rfl rfl (by decide)
  exact ⟨h.2.1, h.2.2.2.2.2.2.1⟩

-- ---------------------------------------------------------------------------
-- Totality: the decoder never reaches the fuel-exhaustion marker
-- ---------------------------------------------------------------------------

/-- A result is clean when it is not the fuel-exhaustion marker
(`LdapError::Unknown`, the spec's "reserved for unreachable branches"). -/
def NU {β : Type} (r : Except Err β) : Prop :=
  r ≠ Except.error (Err.failure LdapError.unknown)

/-- Success results are clean. -/
theorem nu_ok {β : Type} (x : β) : NU (Except.ok x) := by simp [NU]

/-- Bind preserves cleanliness. -/
theorem nu_bind {β γ : Type} {p : Except Err β} {f : β → Except Err γ}
    (hp : NU p) (hf : ∀ x, NU (f x)) : NU (p >>= f) := by
  cases p with
  | error e =>
    rw [ebind_err]
    simp only [NU, ne_eq, Except.error.injEq] at hp ⊢
    exact hp
  | ok x => rw [ebind_ok]; exact hf x

/-- Streaming take is clean. -/
theorem nu_takeS (n : Nat) (i : Input) : NU (takeS n i) := by
  unfold takeS
  split <;> simp [NU]

/-- Extended-tag accumulation is clean. -/
theorem nu_extTagLoop : ∀ (i : Input) (acc : Nat), NU (extTagLoop i acc) := by
  intro i
  induction i with
  | nil => intro acc; simp [extTagLoop, NU]
  | cons b r ih =>
    intro acc
    unfold extTagLoop
    dsimp only
    split
    · split
      · exact nu_ok _
      · exact ih _
    · simp [NU]

/-- The header reader is clean. -/
theorem nu_header : ∀ i : Input, NU (Header.from_ber i) := by
  have hcont : ∀ (b tv : Nat) (r1 : Input),
      NU ((match r1 with
        | [] => Except.error (Err.incomplete (some 1))
        | l :: r2 =>
          if l < 128 then
            Except.ok (r2, ⟨b / 64, decide (b / 32 % 2 = 1), tv, BerLength.definite l⟩)
          else
            if l = 128 then
              Except.ok (r2, ⟨b / 64, decide (b / 32 % 2 = 1), tv, BerLength.indefinite⟩)
            else
              if l = 255 then Except.error (Err.failure (.ber .invalidLength))
              else
                takeS (l - 128) r2 >>= fun y =>
                  Except.ok (y.1, ⟨b / 64, decide (b / 32 % 2 = 1), tv,
                    BerLength.definite (beNat y.2)⟩) :
        Except Err (Input × Header))) := by
    intro b tv r1
    rcases r1 with _ | ⟨l, r2⟩
    · simp [NU]
    · dsimp only
      split
      · exact nu_ok _
      · split
        · exact nu_ok _
        · split
          · simp [NU]
          · apply nu_bind (nu_takeS _ _)
            intro y
            exact nu_ok _
  intro i
  cases i with
  | nil => simp [Header.from_ber, NU]
  | cons b r =>
    unfold Header.from_ber
    dsimp only
    split
    · apply nu_bind (nu_extTagLoop r 0)
      intro y
      exact hcont b y.2 y.1
    · rw [ebind_ok]
      exact hcont b (b % 32) r

/-- The generic TLV reader is clean. -/
theorem nu_any : ∀ i : Input, NU (Any.from_ber i) := by
  intro i
  unfold Any.from_ber
  apply nu_bind (nu_header i)
  rintro ⟨rem, ⟨c, k, t, len⟩⟩
  dsimp only
  rcases len with l | _
  · dsimp only
    apply nu_bind (nu_takeS _ _)
    intro y
    exact nu_ok _
  · simp [NU]

/-- Class assertion is clean. -/
theorem nu_assertClass (c : Nat) (hdr : Header) : NU (assertClass c hdr) := by
  unfold assertClass
  split <;> simp [NU]

/-- Tag assertion is clean. -/
theorem nu_assertTag (t : Nat) (hdr : Header) : NU (assertTag t hdr) := by
  unfold assertTag
  split <;> simp [NU]

/-- Primitive assertion is clean. -/
theorem nu_assertPrimitive (hdr : Header) : NU (assertPrimitive hdr) := by
  unfold assertPrimitive
  split <;> simp [NU]

/-- Constructed assertion is clean. -/
theorem nu_assertConstructed (hdr : Header) : NU (assertConstructed hdr) := by
  unfold assertConstructed
  split <;> simp [NU]

/-- Unsigned-integer content decoding is clean. -/
theorem nu_bytes_to_uint (sz : Nat) (data : Input) : NU (bytes_to_uint sz data) := by
  unfold bytes_to_uint
  rcases data with _ | ⟨b, r⟩
  · exact nu_ok _
  · dsimp only
    split
    · simp [NU]
    · split
      · simp [NU]
      · exact nu_ok _

/-- The u32 integer parser is clean. -/
theorem nu_u32 : ∀ i : Input, NU (u32_from_ber i) := by
  intro i
  unfold u32_from_ber
  refine nu_bind (nu_any i) ?_
  rintro ⟨rem, hdr, data⟩
  refine nu_bind (nu_assertTag _ _) fun _ => ?_
  refine nu_bind (nu_assertPrimitive _) fun _ => ?_
  exact nu_bind (nu_bytes_to_uint _ _) fun _ => nu_ok _

/-- The u8 integer parser is clean. -/
theorem nu_u8 : ∀ i : Input, NU (u8_from_ber i) := by
  intro i
  unfold u8_from_ber
  refine nu_bind (nu_any i) ?_
  rintro ⟨rem, hdr, data⟩
  refine nu_bind (nu_assertTag _ _) fun _ => ?_
  refine nu_bind (nu_assertPrimitive _) fun _ => ?_
  exact nu_bind (nu_bytes_to_uint _ _) fun _ => nu_ok _

/-- The ENUMERATED parser is clean. -/
theorem nu_enum : ∀ i : Input, NU (Enumerated.from_ber i) := by
  intro i
  unfold Enumerated.from_ber
  refine nu_bind (nu_any i) ?_
  rintro ⟨rem, hdr, data⟩
  refine nu_bind (nu_assertTag _ _) fun _ => ?_
  refine nu_bind (nu_assertPrimitive _) fun _ => ?_
  exact nu_bind (nu_bytes_to_uint _ _) fun _ => nu_ok _

/-- The OCTET STRING slice parser is clean. -/
theorem nu_octetstring : ∀ i : Input, NU (octetstring_as_slice i) := by
  intro i
  unfold octetstring_as_slice
  refine nu_bind (nu_any i) ?_
  rintro ⟨rem, hdr, data⟩
  exact nu_bind (nu_assertTag _ _) fun _ => nu_ok _

/-- The BOOLEAN parser is clean. -/
theorem nu_bool : ∀ i : Input, NU (bool_from_ber i) := by
  intro i
  unfold bool_from_ber
  refine nu_bind (nu_any i) ?_
  rintro ⟨rem, hdr, data⟩
  refine nu_bind (nu_assertTag _ _) fun _ => ?_
  refine nu_bind (nu_assertPrimitive _) fun _ => ?_
  rcases data with _ | ⟨b, r⟩
  · simp [NU]
  · rcases r with _ | _ <;> simp [NU]

/-- The NULL parser is clean. -/
theorem nu_null : ∀ i : Input, NU (null_from_ber i) := by
  intro i
  unfold null_from_ber
  refine nu_bind (nu_any i) ?_
  rintro ⟨rem, hdr, data⟩
  refine nu_bind (nu_assertTag _ _) fun _ => ?_
  rcases data with _ | _ <;> simp [NU]

/-- The optional BOOLEAN parser is clean. -/
theorem nu_opt_bool : ∀ i : Input, NU (opt_bool_from_ber i) := by
  intro i
  unfold opt_bool_from_ber
  rcases i with _ | ⟨b, r⟩
  · exact nu_ok _
  · dsimp only
    split <;> simp [NU]

/-- Complete preserves cleanliness of the inner parser. -/
theorem nu_completeC {α : Type} {p : Input → Except Err (Input × α)} {i : Input}
    (h : NU (p i)) : NU (completeC p i) := by
  unfold completeC
  split
  · simp [NU]
  · exact h

/-- Opt is unconditionally clean (it swallows recoverable failures). -/
theorem nu_optC {α : Type} (p : Input → Except Err (Input × α)) (i : Input) :
    NU (optC p i) := by
  unfold optC
  split <;> simp [NU]

/-- Map preserves cleanliness. -/
theorem nu_pmap {α β : Type} {g : α → β} {p : Input → Except Err (Input × α)} {i : Input}
    (h : NU (p i)) : NU (pmap g p i) := by
  unfold pmap
  split
  · exact nu_ok _
  · rename_i e he
    rw [he] at h
    simpa [NU] using h

/-- Verify preserves cleanliness. -/
theorem nu_verifyC {α : Type} {p : Input → Except Err (Input × α)} {pred : α → Bool}
    {i : Input} (h : NU (p i)) : NU (verifyC p pred i) := by
  unfold verifyC
  split
  · split <;> simp [NU]
  · rename_i e he
    rw [he] at h
    simpa [NU] using h

/-- The repetition loop is clean whenever its fuel exceeds the input length
(each iteration consumes at least one byte). -/
theorem nu_manyLoop {α : Type} : ∀ (fuel : Nat) (k : ErrorKind)
    (p : Input → Except Err (Input × α)) (i : Input), i.length < fuel →
    NU (manyLoop fuel k p i) := by
  intro fuel
  induction fuel with
  | zero => intro k p i h; exact absurd h (Nat.not_lt_zero _)
  | succ fuel ih =>
    intro k p i hlen
    unfold manyLoop
    rcases hp : p i with e | ⟨i1, x⟩
    · rcases e with e | n <;> simp [NU]
    · by_cases hlt : i1.length < i.length
      · simp only [if_pos hlt]
        have h1 : i1.length < fuel := by
          have := Nat.lt_of_lt_of_le hlt (Nat.lt_succ_iff.mp hlen)
          exact this
        have := ih k p i1 h1
        rcases hm : manyLoop fuel k p i1 with e | y
        · rw [hm] at this
          simpa [NU] using this
        · exact nu_ok _
      · simp [if_neg hlt, NU]

/-- many0 is unconditionally clean. -/
theorem nu_many0 {α : Type} (p : Input → Except Err (Input × α)) (i : Input) :
    NU (many0 p i) := by
  unfold many0
  exact nu_manyLoop _ _ _ _ (Nat.lt_succ_self _)

/-- many1 is unconditionally clean. -/
theorem nu_many1 {α : Type} (p : Input → Except Err (Input × α)) (i : Input) :
    NU (many1 p i) := by
  unfold many1
  rcases hp : p i with e | ⟨i1, x⟩
  · rcases e with e | n <;> simp [NU]
  · by_cases hlt : i1.length < i.length
    · simp only [if_pos hlt]
      have := nu_manyLoop (α := α) (i1.length + 1) .many1K p i1 (Nat.lt_succ_self _)
      rcases hm : manyLoop (i1.length + 1) .many1K p i1 with e | y
      · rw [hm] at this
        simpa [NU] using this
      · exact nu_ok _
    · simp [if_neg hlt, NU]

/-- Sequence-and-then is clean when the inner decoder is. -/
theorem nu_seq_and_then {α : Type} {op : Input → Except Err (Input × α)}
    (h : ∀ j, NU (op j)) (i : Input) : NU (Sequence.from_ber_and_then i op) := by
  unfold Sequence.from_ber_and_then
  refine nu_bind (nu_any i) ?_
  rintro ⟨rem, hdr, data⟩
  refine nu_bind (nu_assertTag _ _) fun _ => ?_
  refine nu_bind (nu_assertConstructed _) fun _ => ?_
  exact nu_bind (h data) fun _ => nu_ok _

/-- Tagged-and-then is clean when the inner decoder is. -/
theorem nu_tagged_and_then {α : Type} {cls tagv : Nat} {op : Input → Except Err (Input × α)}
    (h : ∀ j, NU (op j)) (i : Input) : NU (TaggedParser.from_ber_and_then cls tagv i op) := by
  unfold TaggedParser.from_ber_and_then
  refine nu_bind (nu_any i) ?_
  rintro ⟨rem, hdr, data⟩
  refine nu_bind (nu_assertClass _ _) fun _ => ?_
  refine nu_bind (nu_assertTag _ _) fun _ => ?_
  exact nu_bind (h data) fun _ => nu_ok _

/-- The optional tagged combinator is clean when the inner decoder is. -/
theorem nu_optTagged {α : Type} {cls tagv : Nat} {op : Input → Except Err (Input × α)}
    (h : ∀ j, NU (op j)) (i : Input) : NU (OptTaggedParser.parse_ber cls tagv i op) := by
  unfold OptTaggedParser.parse_ber
  rcases i with _ | ⟨b, r⟩
  · exact nu_ok _
  · apply nu_bind (nu_any _)
    rintro ⟨rem, hdr, data⟩
    dsimp only
    split
    · apply nu_bind (h data)
      intro y
      exact nu_ok _
    · exact nu_ok _

/-- The container combinator is clean when the inner decoder is. -/
theorem nu_container {α : Type} {f : Input → Header → Except Err (Input × α)}
    (h : ∀ j hdr, NU (f j hdr)) (i : Input) : NU (parse_ber_container f i) := by
  unfold parse_ber_container
  apply nu_bind (nu_header i)
  rintro ⟨rem, ⟨c, k, t, len⟩⟩
  dsimp only
  rcases len with l | _
  · dsimp only
    apply nu_bind (nu_takeS _ _)
    intro y
    apply nu_bind (h y.2 _)
    intro z
    exact nu_ok _
  · simp [NU]

/-- The implicit-tagged combinator is clean when the inner decoder is. -/
theorem nu_tagged_implicit {α : Type} {t : Nat} {f : Input → Header → Except Err (Input × α)}
    (h : ∀ j hdr, NU (f j hdr)) (i : Input) : NU (parse_ber_tagged_implicit_g t f i) := by
  unfold parse_ber_tagged_implicit_g
  refine nu_container ?_ i
  intro j hdr
  exact nu_bind (nu_assertTag _ _) fun _ => h j hdr

/-- The SEQUENCE-defined combinator is clean when the inner decoder is. -/
theorem nu_seq_defined {α : Type} {f : Input → Except Err (Input × α)}
    (h : ∀ j, NU (f j)) (i : Input) : NU (parse_ber_sequence_defined_g f i) := by
  unfold parse_ber_sequence_defined_g
  refine nu_container ?_ i
  intro j hdr
  exact nu_bind (nu_assertTag _ _) fun _ => h j

/-- The SET-defined combinator is clean when the inner decoder is. -/
theorem nu_set_defined {α : Type} {f : Input → Except Err (Input × α)}
    (h : ∀ j, NU (f j)) (i : Input) : NU (parse_ber_set_defined_g f i) := by
  unfold parse_ber_set_defined_g
  refine nu_container ?_ i
  intro j hdr
  exact nu_bind (nu_assertTag _ _) fun _ => h j

/-- Characterisation of a successful streaming take. -/
theorem takeS_ok {n : Nat} {i r c : Input} (h : takeS n i = Except.ok (r, c)) :
    r = i.drop n ∧ c = i.take n ∧ n ≤ i.length := by
  unfold takeS at h
  by_cases hl : i.length < n
  · simp [hl] at h
  · simp only [if_neg hl, Except.ok.injEq, Prod.mk.injEq] at h
    exact ⟨h.1.symm, h.2.symm, Nat.le_of_not_lt hl⟩

/-- Extended-tag accumulation consumes at least one byte. -/
theorem extTagLoop_len : ∀ {i : Input} {acc : Nat} {r : Input} {v : Nat},
    extTagLoop i acc = Except.ok (r, v) → r.length < i.length := by
  intro i
  induction i with
  | nil => intro acc r v h; simp [extTagLoop] at h
  | cons b rest ih =>
    intro acc r v h
    unfold extTagLoop at h
    dsimp only at h
    by_cases h2 : acc * 128 + b % 128 < 2 ^ 32
    · rw [if_pos h2] at h
      by_cases hb : b < 128
      · rw [if_pos hb] at h
        injection h with h
        injection h with h1 h2
        subst h1
        simp
      · rw [if_neg hb] at h
        have := ih h
        simpa using Nat.lt_succ_of_lt this
    · rw [if_neg h2] at h
      exact absurd h (by simp)

/-- A successfully read header consumes at least two bytes. -/
theorem header_len : ∀ {i r : Input} {hdr : Header},
    Header.from_ber i = Except.ok (r, hdr) → r.length + 2 ≤ i.length := by
  intro i r hdr h
  rcases i with _ | ⟨b, rest⟩
  · simp [Header.from_ber] at h
  · unfold Header.from_ber at h
    dsimp only at h
    have hcont : ∀ (r1 : Input) (tv : Nat),
        (match r1 with
          | [] => Except.error (Err.incomplete (some 1))
          | l :: r2 =>
            if l < 128 then
              Except.ok (r2, ⟨b / 64, decide (b / 32 % 2 = 1), tv, BerLength.definite l⟩)
            else
              if l = 128 then
                Except.ok (r2, ⟨b / 64, decide (b / 32 % 2 = 1), tv, BerLength.indefinite⟩)
              else
                if l = 255 then Except.error (Err.failure (.ber .invalidLength))
                else
                  takeS (l - 128) r2 >>= fun y =>
                    Except.ok (y.1, ⟨b / 64, decide (b / 32 % 2 = 1), tv,
                      BerLength.definite (beNat y.2)⟩) :
          Except Err (Input × Header)) = Except.ok (r, hdr) → r.length + 1 ≤ r1.length := by
      intro r1 tv hm
      rcases r1 with _ | ⟨l, r2⟩
      · simp at hm
      · dsimp only at hm
        by_cases h1 : l < 128
        · rw [if_pos h1] at hm
          injection hm with hm
          injection hm with hm1 hm2
          subst hm1
          simp
        · rw [if_neg h1] at hm
          by_cases h2 : l = 128
          · rw [if_pos h2] at hm
            injection hm with hm
            injection hm with hm1 hm2
            subst hm1
            simp
          · rw [if_neg h2] at hm
            by_cases h3 : l = 255
            · rw [if_pos h3] at hm
              exact absurd hm (by simp)
            · rw [if_neg h3] at hm
              obtain ⟨⟨r3, lb⟩, ht, hm⟩ := ebind_ok_elim hm
              obtain ⟨hr, -, -⟩ := takeS_ok ht
              injection hm with hm
              injection hm with hm1 hm2
              dsimp only at hm1
              subst hm1
              subst hr
              have hd : (r2.drop (l - 128)).length ≤ r2.length := by simp
              simp only [List.length_cons]
              omega
    by_cases hb : b % 32 = 31
    · rw [if_pos hb] at h
      obtain ⟨⟨r1, tv⟩, he, h⟩ := ebind_ok_elim h
      have h1 : r1.length < rest.length := extTagLoop_len he
      have h2 := hcont r1 tv h
      simp only [List.length_cons]
      omega
    · rw [if_neg hb] at h
      rw [ebind_ok] at h
      have h2 := hcont rest (b % 32) h
      simp only [List.length_cons]
      omega

/-- The container combinator is clean when the inner decoder is clean on
every content slice at least two bytes shorter than the input. -/
theorem nu_container_len {α : Type} {f : Input → Header → Except Err (Input × α)} {i : Input}
    (h : ∀ j hdr, j.length + 2 ≤ i.length → NU (f j hdr)) :
    NU (parse_ber_container f i) := by
  unfold parse_ber_container
  rcases hh : Header.from_ber i with e | ⟨r0, hdr⟩
  · rw [ebind_err]
    have := nu_header i
    rw [hh] at this
    simp only [NU, ne_eq, Except.error.injEq] at this ⊢
    exact this
  · rw [ebind_ok]
    have hlen := header_len hh
    rcases hdr with ⟨c, k, t, len⟩
    dsimp only
    rcases len with l | _
    · dsimp only
      rcases ht : takeS l r0 with e | ⟨rem2, content⟩
      · rw [ebind_err]
        have := nu_takeS l r0
        rw [ht] at this
        simp only [NU, ne_eq, Except.error.injEq] at this ⊢
        exact this
      · rw [ebind_ok]
        obtain ⟨-, hc, -⟩ := takeS_ok ht
        have hcl : content.length + 2 ≤ i.length := by
          subst hc
          have : (r0.take l).length ≤ r0.length := by simp
          omega
        dsimp only
        apply nu_bind (h content _ hcl)
        intro y
        exact nu_ok _
    · simp [NU]

/-- The LDAPString parser is clean. -/
theorem nu_ldapString : ∀ i : Input, NU (LdapString.from_ber i) := by
  intro i
  unfold LdapString.from_ber parse_ldap_octet_string_as_slice
  apply nu_bind (nu_octetstring i)
  rintro ⟨j, b⟩
  dsimp only
  split
  · exact nu_ok _
  · simp [NU]

/-- The legacy LDAPString parser alias is clean. -/
theorem nu_parse_ldap_string : ∀ i : Input, NU (parse_ldap_string i) := nu_ldapString

/-- The LDAPDN parser is clean. -/
theorem nu_ldapDN : ∀ i : Input, NU (LdapDN.from_ber i) := by
  intro i
  unfold LdapDN.from_ber
  apply nu_bind (nu_octetstring i)
  rintro ⟨j, b⟩
  dsimp only
  split
  · exact nu_ok _
  · simp [NU]

/-- The RelativeLDAPDN parser is clean. -/
theorem nu_relativeLdapDN : ∀ i : Input, NU (RelativeLdapDN.from_ber i) := by
  intro i
  unfold RelativeLdapDN.from_ber
  apply nu_bind (nu_octetstring i)
  rintro ⟨j, b⟩
  dsimp only
  split
  · exact nu_ok _
  · simp [NU]

/-- The LDAPOID parser is clean. -/
theorem nu_ldapOID : ∀ i : Input, NU (LdapOID.from_ber i) := by
  intro i
  unfold LdapOID.from_ber
  apply nu_bind (nu_octetstring i)
  rintro ⟨j, b⟩
  dsimp only
  split
  · exact nu_ok _
  · simp [NU]

/-- The MessageID parser is clean. -/
theorem nu_messageID : ∀ i : Input, NU (MessageID.from_ber i) := by
  intro i
  unfold MessageID.from_ber
  exact nu_pmap (nu_u32 i)

/-- The AVA content parser is clean. -/
theorem nu_ava_content : ∀ i : Input, NU (parse_ldap_attribute_value_assertion_content i) := by
  intro i
  unfold parse_ldap_attribute_value_assertion_content parse_ldap_attribute_description
    parse_ldap_assertion_value
  apply nu_bind (nu_parse_ldap_string i)
  rintro ⟨j, d⟩
  dsimp only
  apply nu_bind (nu_octetstring j)
  rintro ⟨j2, v⟩
  exact nu_ok _

/-- The AVA parser is clean. -/
theorem nu_ava : ∀ i : Input, NU (parse_ldap_attribute_value_assertion i) := by
  intro i
  unfold parse_ldap_attribute_value_assertion
  exact nu_seq_defined nu_ava_content i

/-- The attribute value parser is clean. -/
theorem nu_attribute_value : ∀ i : Input, NU (parse_ldap_attribute_value i) := by
  intro i
  unfold parse_ldap_attribute_value parse_ldap_octet_string_as_slice
  exact nu_pmap (nu_octetstring i)

/-- The partial attribute parser is clean. -/
theorem nu_partial_attribute : ∀ i : Input, NU (parse_ldap_partial_attribute i) := by
  intro i
  unfold parse_ldap_partial_attribute
  refine nu_seq_defined (fun j => ?_) i
  apply nu_bind (nu_parse_ldap_string j)
  rintro ⟨j1, t⟩
  dsimp only
  apply nu_bind (nu_set_defined (fun inner => nu_many0 _ inner) j1)
  rintro ⟨j2, vals⟩
  exact nu_ok _

/-- The attribute parser is clean. -/
theorem nu_attribute : ∀ i : Input, NU (parse_ldap_attribute i) := by
  intro i
  unfold parse_ldap_attribute
  refine nu_seq_defined (fun j => ?_) i
  apply nu_bind (nu_parse_ldap_string j)
  rintro ⟨j1, t⟩
  dsimp only
  apply nu_bind (nu_set_defined (fun inner => nu_many1 _ inner) j1)
  rintro ⟨j2, vals⟩
  exact nu_ok _

/-- The substring parser is clean. -/
theorem nu_substring : ∀ i : Input, NU (parse_ldap_substring i) := by
  intro i
  unfold parse_ldap_substring
  refine nu_container (fun j hdr => ?_) i
  rcases hdr with ⟨c, k, t, len⟩
  dsimp only
  rcases t with _ | _ | _ | t
  · exact nu_ok _
  · exact nu_ok _
  · exact nu_ok _
  · simp [NU]

/-- The substring filter content parser is clean. -/
theorem nu_substrings_content : ∀ i : Input, NU (parse_ldap_substrings_filter_content i) := by
  intro i
  unfold parse_ldap_substrings_filter_content parse_ldap_attribute_description
  apply nu_bind (nu_parse_ldap_string i)
  rintro ⟨j, t⟩
  dsimp only
  apply nu_bind (nu_seq_defined (fun d => nu_many1 _ d) j)
  rintro ⟨j2, subs⟩
  exact nu_ok _

/-- The matching rule assertion content parser is clean. -/
theorem nu_mra_content : ∀ i : Input, NU (parse_ldap_matching_rule_assertion_content i) := by
  intro i
  unfold parse_ldap_matching_rule_assertion_content
  apply nu_bind (nu_optC _ i)
  rintro ⟨j1, mr⟩
  dsimp only
  apply nu_bind (nu_optC _ j1)
  rintro ⟨j2, rt⟩
  dsimp only
  apply nu_bind (nu_tagged_implicit (fun j hdr => nu_ok _) j2)
  rintro ⟨j3, av⟩
  dsimp only
  apply nu_bind (nu_optC _ j3)
  rintro ⟨j4, da⟩
  exact nu_ok _

/-- The filter parser is clean at every fuel exceeding the input length:
its recursion never runs out, because every nesting level consumes at least
two bytes of input. -/
theorem nu_filter : ∀ (fuel : Nat) (i : Input), i.length < fuel →
    NU (parse_ldap_filter fuel i) := by
  intro fuel
  induction fuel with
  | zero => intro i h; exact absurd h (Nat.not_lt_zero _)
  | succ fuel ih =>
    intro i hlen
    unfold parse_ldap_filter
    apply nu_bind (nu_header i)
    rintro ⟨r0, ⟨c, k, t, len⟩⟩
    dsimp only
    rcases t with _ | _ | _ | _ | _ | _ | _ | _ | _ | _ | t
    · apply nu_bind (nu_tagged_implicit (fun j hdr => nu_many1 _ j) i)
      intro y
      exact nu_ok _
    · apply nu_bind (nu_tagged_implicit (fun j hdr => nu_many1 _ j) i)
      intro y
      exact nu_ok _
    · refine nu_bind ?_ fun y => nu_ok _
      unfold parse_ber_tagged_implicit_g
      apply nu_container_len
      intro j hdr2 hj
      apply nu_bind (nu_assertTag _ _)
      intro u
      exact ih j (by omega)
    · exact nu_tagged_implicit (fun j hdr => nu_pmap (nu_ava_content j)) i
    · exact nu_tagged_implicit (fun j hdr => nu_pmap (nu_substrings_content j)) i
    · exact nu_tagged_implicit (fun j hdr => nu_pmap (nu_ava_content j)) i
    · exact nu_tagged_implicit (fun j hdr => nu_pmap (nu_ava_content j)) i
    · refine nu_tagged_implicit (fun j hdr => ?_) i
      dsimp only
      split
      · exact nu_ok _
      · simp [NU]
    · exact nu_tagged_implicit (fun j hdr => nu_pmap (nu_ava_content j)) i
    · exact nu_tagged_implicit (fun j hdr => nu_pmap (nu_mra_content j)) i
    · simp [NU]

/-- The Filter entry point is clean. -/
theorem nu_filter_from_ber : ∀ i : Input, NU (Filter.from_ber i) := fun i =>
  nu_filter (i.length + 1) i (Nat.lt_succ_self _)

/-- The LDAPResult content parser is clean. -/
theorem nu_result_content : ∀ i : Input, NU (parse_ldap_result_content i) := by
  intro i
  unfold parse_ldap_result_content parse_ldap_enum_as_u32
  apply nu_bind (nu_pmap (nu_enum i))
  rintro ⟨j1, rc⟩
  dsimp only
  apply nu_bind (nu_ldapDN j1)
  rintro ⟨j2, dn⟩
  dsimp only
  apply nu_bind (nu_ldapString j2)
  rintro ⟨j3, dm⟩
  exact nu_ok _

/-- The SASL credentials parser is clean. -/
theorem nu_sasl : ∀ i : Input, NU (parse_sasl_credentials i) := by
  intro i
  unfold parse_sasl_credentials
  apply nu_bind (nu_ldapString i)
  rintro ⟨j1, m⟩
  dsimp only
  apply nu_bind (nu_optC _ j1)
  rintro ⟨j2, cr⟩
  exact nu_ok _

/-- The AuthenticationChoice parser is clean. -/
theorem nu_authChoice : ∀ i : Input, NU (AuthenticationChoice.from_ber i) := by
  intro i
  unfold AuthenticationChoice.from_ber
  apply nu_bind (nu_header i)
  rintro ⟨rem, ⟨c, k, t, len⟩⟩
  dsimp only
  rcases t with _ | _ | _ | _ | t
  · refine nu_bind ?_ fun sz => ?_
    · rcases len with l | _
      · exact nu_ok _
      · simp [NU]
    · dsimp only
      apply nu_bind (nu_takeS _ _)
      intro y
      exact nu_ok _
  · simp [NU]
  · simp [NU]
  · exact nu_pmap (nu_sasl rem)
  · simp [NU]

/-- The BindRequest parser is clean. -/
theorem nu_bindRequest : ∀ i : Input, NU (BindRequest.from_ber i) := by
  intro i
  unfold BindRequest.from_ber
  refine nu_tagged_and_then (fun j => ?_) i
  apply nu_bind (nu_verifyC (nu_u8 j))
  rintro ⟨j1, v⟩
  dsimp only
  apply nu_bind (nu_ldapDN j1)
  rintro ⟨j2, n⟩
  dsimp only
  apply nu_bind (nu_authChoice j2)
  rintro ⟨j3, a⟩
  exact nu_ok _

/-- The BindResponse parser is clean. -/
theorem nu_bindResponse : ∀ i : Input, NU (BindResponse.from_ber i) := by
  intro i
  unfold BindResponse.from_ber
  refine nu_tagged_and_then (fun j => ?_) i
  apply nu_bind (nu_result_content j)
  rintro ⟨j1, r⟩
  dsimp only
  apply nu_bind (nu_optTagged (fun d => nu_ok _) j1)
  rintro ⟨j2, s⟩
  exact nu_ok _

/-- The UnbindRequest parser is clean. -/
theorem nu_unbind : ∀ i : Input, NU (parse_ldap_unbind_request i) := by
  intro i
  unfold parse_ldap_unbind_request
  refine nu_tagged_and_then (fun j => ?_) i
  dsimp only
  split
  · exact nu_ok _
  · apply nu_bind (nu_null j)
    intro y
    exact nu_ok _

/-- The attribute selection parser is clean. -/
theorem nu_attr_selection : ∀ i : Input, NU (parse_attribute_selection i) := by
  intro i
  unfold parse_attribute_selection
  exact nu_seq_and_then (fun j => nu_many0 _ j) i

/-- The SearchRequest parser is clean. -/
theorem nu_searchRequest : ∀ i : Input, NU (SearchRequest.from_ber i) := by
  intro i
  unfold SearchRequest.from_ber parse_ldap_enum_as_u32 parse_ldap_int_as_u32
  refine nu_tagged_and_then (fun j => ?_) i
  apply nu_bind (nu_ldapDN j)
  rintro ⟨j1, dn⟩
  dsimp only
  apply nu_bind (nu_pmap (nu_enum j1))
  rintro ⟨j2, sc⟩
  dsimp only
  apply nu_bind (nu_pmap (nu_enum j2))
  rintro ⟨j3, da⟩
  dsimp only
  apply nu_bind (nu_u32 j3)
  rintro ⟨j4, sl⟩
  dsimp only
  apply nu_bind (nu_u32 j4)
  rintro ⟨j5, tl⟩
  dsimp only
  apply nu_bind (nu_bool j5)
  rintro ⟨j6, ty⟩
  dsimp only
  apply nu_bind (nu_filter_from_ber j6)
  rintro ⟨j7, fl⟩
  dsimp only
  apply nu_bind (nu_attr_selection j7)
  rintro ⟨j8, att⟩
  exact nu_ok _

/-- The partial attribute list parser is clean. -/
theorem nu_partial_attr_list : ∀ i : Input, NU (parse_partial_attribute_list i) := by
  intro i
  unfold parse_partial_attribute_list
  exact nu_seq_and_then (fun j => nu_many0 _ j) i

/-- The SearchResultEntry parser is clean. -/
theorem nu_searchResultEntry : ∀ i : Input, NU (SearchResultEntry.from_ber i) := by
  intro i
  unfold SearchResultEntry.from_ber
  refine nu_tagged_and_then (fun j => ?_) i
  apply nu_bind (nu_ldapDN j)
  rintro ⟨j1, dn⟩
  dsimp only
  apply nu_bind (nu_partial_attr_list j1)
  rintro ⟨j2, a⟩
  exact nu_ok _

/-- The SearchResultDone parser is clean. -/
theorem nu_searchResultDone : ∀ i : Input, NU (parse_ldap_search_result_done i) := by
  intro i
  unfold parse_ldap_search_result_done
  exact nu_tagged_and_then nu_result_content i

/-- The Change parser is clean. -/
theorem nu_change : ∀ i : Input, NU (Change.from_ber i) := by
  intro i
  unfold Change.from_ber parse_ldap_enum_as_u32 PartialAttribute.from_ber
  refine nu_seq_and_then (fun j => ?_) i
  apply nu_bind (nu_pmap (nu_enum j))
  rintro ⟨j1, o⟩
  dsimp only
  apply nu_bind (nu_partial_attribute j1)
  rintro ⟨j2, m⟩
  exact nu_ok _

/-- The ModifyRequest parser is clean. -/
theorem nu_modifyRequest : ∀ i : Input, NU (ModifyRequest.from_ber i) := by
  intro i
  unfold ModifyRequest.from_ber
  refine nu_tagged_and_then (fun j => ?_) i
  apply nu_bind (nu_ldapDN j)
  rintro ⟨j1, dn⟩
  dsimp only
  apply nu_bind (nu_seq_and_then (fun j2 => nu_many1 _ j2) j1)
  rintro ⟨j2, ch⟩
  exact nu_ok _

/-- The ModifyResponse parser is clean. -/
theorem nu_modifyResponse : ∀ i : Input, NU (parse_ldap_modify_response i) := by
  intro i
  unfold parse_ldap_modify_response
  refine nu_tagged_and_then (fun j => ?_) i
  apply nu_bind (nu_result_content j)
  rintro ⟨j1, r⟩
  exact nu_ok _

/-- The attribute list parser is clean. -/
theorem nu_attr_list : ∀ i : Input, NU (parse_attribute_list i) := by
  intro i
  unfold parse_attribute_list
  exact nu_seq_and_then (fun j => nu_many0 _ j) i

/-- The AddRequest parser is clean. -/
theorem nu_addRequest : ∀ i : Input, NU (AddRequest.from_ber i) := by
  intro i
  unfold AddRequest.from_ber
  refine nu_tagged_and_then (fun j => ?_) i
  apply nu_bind (nu_ldapDN j)
  rintro ⟨j1, dn⟩
  dsimp only
  apply nu_bind (nu_attr_list j1)
  rintro ⟨j2, a⟩
  exact nu_ok _

/-- The AddResponse parser is clean. -/
theorem nu_addResponse : ∀ i : Input, NU (parse_ldap_add_response i) := by
  intro i
  unfold parse_ldap_add_response
  exact nu_tagged_and_then nu_result_content i

/-- The DelRequest parser is clean. -/
theorem nu_delRequest : ∀ i : Input, NU (parse_ldap_del_request i) := by
  intro i
  unfold parse_ldap_del_request
  refine nu_tagged_and_then (fun j => ?_) i
  dsimp only
  split
  · exact nu_ok _
  · simp [NU]

/-- The DelResponse parser is clean. -/
theorem nu_delResponse : ∀ i : Input, NU (parse_ldap_del_response i) := by
  intro i
  unfold parse_ldap_del_response
  exact nu_tagged_and_then nu_result_content i

/-- The ModDnRequest parser is clean. -/
theorem nu_modDnRequest : ∀ i : Input, NU (ModDnRequest.from_ber i) := by
  intro i
  unfold ModDnRequest.from_ber
  refine nu_tagged_and_then (fun j => ?_) i
  apply nu_bind (nu_ldapDN j)
  rintro ⟨j1, dn⟩
  dsimp only
  apply nu_bind (nu_relativeLdapDN j1)
  rintro ⟨j2, rdn⟩
  dsimp only
  apply nu_bind (nu_bool j2)
  rintro ⟨j3, b⟩
  dsimp only
  refine nu_bind (nu_optTagged (fun d => ?_) j3) fun y => nu_ok _
  dsimp only
  split
  · exact nu_ok _
  · simp [NU]

/-- The ModDnResponse parser is clean. -/
theorem nu_modDnResponse : ∀ i : Input, NU (parse_ldap_moddn_response i) := by
  intro i
  unfold parse_ldap_moddn_response
  exact nu_tagged_and_then nu_result_content i

/-- The CompareRequest parser is clean. -/
theorem nu_compareRequest : ∀ i : Input, NU (CompareRequest.from_ber i) := by
  intro i
  unfold CompareRequest.from_ber AttributeValueAssertion.from_ber
  refine nu_tagged_and_then (fun j => ?_) i
  apply nu_bind (nu_ldapDN j)
  rintro ⟨j1, dn⟩
  dsimp only
  apply nu_bind (nu_ava j1)
  rintro ⟨j2, a⟩
  exact nu_ok _

/-- The CompareResponse parser is clean. -/
theorem nu_compareResponse : ∀ i : Input, NU (parse_ldap_compare_response i) := by
  intro i
  unfold parse_ldap_compare_response
  exact nu_tagged_and_then nu_result_content i

/-- The AbandonRequest parser is clean. -/
theorem nu_abandonRequest : ∀ i : Input, NU (parse_ldap_abandon_request i) := by
  intro i
  unfold parse_ldap_abandon_request
  apply nu_bind (nu_any i)
  rintro ⟨rem, hdr, data⟩
  dsimp only
  refine nu_bind (nu_assertClass _ _) fun u1 => ?_
  refine nu_bind (nu_assertTag _ _) fun u2 => ?_
  refine nu_bind (nu_assertPrimitive _) fun u3 => ?_
  refine nu_bind (nu_bytes_to_uint _ _) fun v => nu_ok _

/-- The SearchResultReference parser is clean. -/
theorem nu_searchResultRef : ∀ i : Input, NU (parse_ldap_search_result_ref i) := by
  intro i
  unfold parse_ldap_search_result_ref
  exact nu_tagged_and_then (fun j => nu_many1 _ j) i

/-- The ExtendedRequest parser is clean. -/
theorem nu_extendedRequest : ∀ i : Input, NU (ExtendedRequest.from_ber i) := by
  intro i
  unfold ExtendedRequest.from_ber
  refine nu_tagged_and_then (fun j => ?_) i
  refine nu_bind (nu_tagged_and_then (fun d => ?_) j) fun y => ?_
  · dsimp only
    split
    · exact nu_ok _
    · simp [NU]
  · rcases y with ⟨j1, n⟩
    dsimp only
    apply nu_bind (nu_optTagged (fun d => nu_ok _) j1)
    rintro ⟨j2, v⟩
    exact nu_ok _

/-- The ExtendedResponse parser is clean. -/
theorem nu_extendedResponse : ∀ i : Input, NU (ExtendedResponse.from_ber i) := by
  intro i
  unfold ExtendedResponse.from_ber
  refine nu_tagged_and_then (fun j => ?_) i
  apply nu_bind (nu_result_content j)
  rintro ⟨j1, r⟩
  dsimp only
  refine nu_bind (nu_optTagged (fun d => ?_) j1) fun y => ?_
  · dsimp only
    split
    · exact nu_ok _
    · simp [NU]
  · rcases y with ⟨j2, n⟩
    dsimp only
    apply nu_bind (nu_optTagged (fun d => nu_ok _) j2)
    rintro ⟨j3, v⟩
    exact nu_ok _

/-- The IntermediateResponse parser is clean. -/
theorem nu_intermediateResponse : ∀ i : Input, NU (IntermediateResponse.from_ber i) := by
  intro i
  unfold IntermediateResponse.from_ber
  refine nu_tagged_and_then (fun j => ?_) i
  refine nu_bind (nu_optTagged (fun d => ?_) j) fun y => ?_
  · dsimp only
    split
    · exact nu_ok _
    · simp [NU]
  · rcases y with ⟨j1, n⟩
    dsimp only
    apply nu_bind (nu_optTagged (fun d => nu_ok _) j1)
    rintro ⟨j2, v⟩
    exact nu_ok _

/-- The Control parser is clean. -/
theorem nu_control : ∀ i : Input, NU (Control.from_ber i) := by
  intro i
  unfold Control.from_ber parse_ldap_octet_string_as_slice
  refine nu_seq_and_then (fun j => ?_) i
  apply nu_bind (nu_ldapOID j)
  rintro ⟨j1, ct⟩
  dsimp only
  apply nu_bind (nu_opt_bool j1)
  rintro ⟨j2, mc⟩
  dsimp only
  apply nu_bind (nu_optC _ j2)
  rintro ⟨j3, cv⟩
  exact nu_ok _

/-- The protocolOp dispatcher is clean. -/
theorem nu_dispatch : ∀ i : Input, NU (protocolOpDispatch i) := by
  intro i
  unfold protocolOpDispatch
  apply nu_bind (nu_header i)
  rintro ⟨r0, ⟨c, k, t, len⟩⟩
  dsimp only
  rcases t with _|_|_|_|_|_|_|_|_|_|_|_|_|_|_|_|_|_|_|_|_|_|_|_|_|_|t
  · exact nu_pmap (nu_bindRequest i)
  · exact nu_pmap (nu_bindResponse i)
  · exact nu_unbind i
  · exact nu_pmap (nu_searchRequest i)
  · exact nu_pmap (nu_searchResultEntry i)
  · exact nu_pmap (nu_searchResultDone i)
  · exact nu_pmap (nu_modifyRequest i)
  · exact nu_pmap (nu_modifyResponse i)
  · exact nu_pmap (nu_addRequest i)
  · exact nu_pmap (nu_addResponse i)
  · exact nu_pmap (nu_delRequest i)
  · exact nu_pmap (nu_delResponse i)
  · exact nu_pmap (nu_modDnRequest i)
  · exact nu_pmap (nu_modDnResponse i)
  · exact nu_pmap (nu_compareRequest i)
  · exact nu_pmap (nu_compareResponse i)
  · exact nu_pmap (nu_abandonRequest i)
  · simp [NU]
  · simp [NU]
  · exact nu_pmap (nu_searchResultRef i)
  · simp [NU]
  · simp [NU]
  · simp [NU]
  · exact nu_pmap (nu_extendedRequest i)
  · exact nu_pmap (nu_extendedResponse i)
  · exact nu_pmap (nu_intermediateResponse i)
  · simp [NU]

/-- The LdapMessage parser is clean. -/
theorem nu_ldapMessage : ∀ i : Input, NU (LdapMessage.from_ber i) := by
  intro i
  unfold LdapMessage.from_ber
  refine nu_seq_and_then (fun j => ?_) i
  apply nu_bind (nu_messageID j)
  rintro ⟨j1, mid⟩
  dsimp only
  apply nu_bind (nu_dispatch j1)
  rintro ⟨j2, op⟩
  dsimp only
  apply nu_bind (nu_optTagged (fun d => nu_many0 _ d) j2)
  rintro ⟨j3, ctl⟩
  exact nu_ok _

/-- C1: decode_message (LdapMessage::from_ber) is a total function of the
input buffer: for every byte buffer it returns either a success value or a
typed error, and the typed error is never the Unknown marker that this model
returns on (unreachable) unbounded recursion — the Filter recursion consumes
at least two bytes of input per level, so the decoder terminates on every
input with no panic and no unbounded recursion. -/
theorem decode_message_total (B : Input) :
    (∃ rem msg, LdapMessage.from_ber B = Except.ok (rem, msg))
    ∨ (∃ e, LdapMessage.from_ber B = Except.error e
        ∧ e ≠ Err.failure LdapError.unknown) := by
  rcases h : LdapMessage.from_ber B with e | ⟨rem, msg⟩
  · right
    refine ⟨e, rfl, ?_⟩
    have := nu_ldapMessage B
    rw [h] at this
    simpa [NU] using this
  · exact Or.inl ⟨rem, msg, rfl⟩

/-- C9: decoding the 8-byte input 30 06 02 01 06 50 01 05 succeeds with zero
remaining bytes and yields message_id 6, protocol_op AbandonRequest(5) and no
controls; the AbandonRequest body under APPLICATION[16] is thus read as an
unwrapped two's-complement big-endian integer, not as a wrapped universal
INTEGER. -/
theorem abandon_envelope_decodes :
    LdapMessage.from_ber [0x30, 0x06, 0x02, 0x01, 0x06, 0x50, 0x01, 0x05] =
      Except.ok ([], ⟨⟨6⟩, ProtocolOp.AbandonRequest ⟨5⟩, none⟩) := by
  rfl

/-- C10: ProtocolOp::result returns the embedded LdapResult exactly for the
eight result-bearing variants (BindResponse, ModifyResponse,
ExtendedResponse, SearchResultDone, AddResponse, DelResponse, ModDnResponse,
CompareResponse — application tags 1,7,24,5,9,11,13,15) and none for every
other variant. -/
theorem protocolOp_result_spec (op : ProtocolOp) :
    ((op.result).isSome ↔ op.tag ∈ ([1, 5, 7, 9, 11, 13, 15, 24] : List Nat))
    ∧ (∀ r, op = ProtocolOp.BindResponse r → op.result = some r.result)
    ∧ (∀ r, op = ProtocolOp.ModifyResponse r → op.result = some r.result)
    ∧ (∀ r, op = ProtocolOp.ExtendedResponse r → op.result = some r.result)
    ∧ (∀ r, op = ProtocolOp.SearchResultDone r → op.result = some r)
    ∧ (∀ r, op = ProtocolOp.AddResponse r → op.result = some r)
    ∧ (∀ r, op = ProtocolOp.DelResponse r → op.result = some r)
    ∧ (∀ r, op = ProtocolOp.ModDnResponse r → op.result = some r)
    ∧ (∀ r, op = ProtocolOp.CompareResponse r → op.result = some r) := by
  cases op <;> simp [ProtocolOp.result, ProtocolOp.tag]

/-- Witness for C10: the theorem applied to a concrete SearchResultDone. -/
theorem protocolOp_result_spec_witness :
    (ProtocolOp.SearchResultDone ⟨⟨0⟩, ⟨[]⟩, ⟨[]⟩⟩).result = some ⟨⟨0⟩, ⟨[]⟩, ⟨[]⟩⟩ :=
  (protocolOp_result_spec (ProtocolOp.SearchResultDone ⟨⟨0⟩, ⟨[]⟩, ⟨[]⟩⟩)).2.2.2.2.1
    ⟨⟨0⟩, ⟨[]⟩, ⟨[]⟩⟩ rfl

-- ---------------------------------------------------------------------------
-- Filter nesting depth (C2)
-- ---------------------------------------------------------------------------

mutual

/-- Nesting depth of a decoded Filter: leaves count 1, Not adds one level,
And/Or add one level over their deepest child. -/
def filterDepth : Filter → Nat
  | .And l => filterDepthList l + 1
  | .Or l => filterDepthList l + 1
  | .Not f => filterDepth f + 1
  | _ => 1

/-- Depth of the deepest filter of a list (0 for the empty list). -/
def filterDepthList : List Filter → Nat
  | [] => 0
  | f :: r => max (filterDepth f) (filterDepthList r)

end

/-- A list whose every element has depth at most n has list-depth at most n. -/
theorem filterDepthList_le {l : List Filter} {n : Nat}
    (h : ∀ x ∈ l, filterDepth x ≤ n) : filterDepthList l ≤ n := by
  induction l with
  | nil => simp [filterDepthList]
  | cons f r ih =>
    simp only [filterDepthList]
    exact max_le (h f (by simp)) (ih fun x hx => h x (List.mem_cons_of_mem _ hx))

/-- A chain of n Not wrappers around a Present filter on attribute "a":
level 0 is the TLV 87 01 61, each further level wraps the previous bytes in a
context [2] constructed TLV A2 len. -/
def notChainBytes : Nat → Input
  | 0 => [0x87, 1, 0x61]
  | n + 1 => 0xA2 :: (notChainBytes n).length :: notChainBytes n

/-- The Filter value the n-level Not chain decodes to. -/
def notChainFilter : Nat → Filter
  | 0 => Filter.Present ⟨[0x61]⟩
  | n + 1 => Filter.Not (notChainFilter n)

/-- The n-level Not chain has nesting depth n + 1. -/
theorem notChain_depth : ∀ n, filterDepth (notChainFilter n) = n + 1 := by
  intro n
  induction n with
  | zero => simp [notChainFilter, filterDepth]
  | succ n ih => simp [notChainFilter, filterDepth, ih]

/-- C2 counterexample: the Filter decoder imposes no depth limit and the
error enumeration has no DepthExceeded kind — a 40-deep Not chain (nesting
depth 40, well beyond the claimed limit of 32) decodes successfully instead
of returning a protocol error. -/
theorem filter_depth_limit_counterexample :
    Filter.from_ber (notChainBytes 39) = Except.ok ([], notChainFilter 39)
    ∧ 32 < filterDepth (notChainFilter 39) := by
  refine ⟨rfl, ?_⟩
  rw [notChain_depth]
  omega

/-- C2 (amended): parse_ldap_filter has no configured recursion-depth limit
and src/error.rs has no DepthExceeded error kind; instead the recursion is
structurally bounded by the input — every level consumes a BER header of at
least two bytes — so every Filter a successful parse produces has nesting
depth at most the length in bytes of the input it was parsed from, bounding
stack usage on adversarial inputs by the input size. -/
theorem filter_depth_bounded :
    ∀ (fuel : Nat) (i rem : Input) (f : Filter),
      parse_ldap_filter fuel i = Except.ok (rem, f) → filterDepth f ≤ i.length := by
  intro fuel
  induction fuel with
  | zero => intro i rem f h; simp [parse_ldap_filter, unkRes] at h
  | succ fuel ih =>
    intro i rem f h
    unfold parse_ldap_filter at h
    obtain ⟨⟨r0, hdr⟩, hh, h⟩ := ebind_ok_elim h
    rcases hdr with ⟨c, k, t, len⟩
    rcases t with _ | _ | _ | _ | _ | _ | _ | _ | _ | _ | t
    · -- tag 0: And
      obtain ⟨⟨i2, subs⟩, hs, h⟩ := ebind_ok_elim h
      cases h
      obtain ⟨r1, hdr1, l, r2, hh1, _, hle, _, _, hf⟩ := tagged_implicit_ok_elim hs
      have hlen1 := header_len hh1
      obtain ⟨hne, hmem⟩ := many1_ok_elim hf
      have hall : ∀ x ∈ subs, filterDepth x ≤ i.length - 2 := by
        intro x hx
        obtain ⟨j, r, hjl, hpj⟩ := hmem x hx
        have hx2 := ih j r x (completeC_ok_elim hpj)
        have hcl : (List.take l r1).length ≤ i.length - 2 := by
          simp only [List.length_take]
          omega
        omega
      have hlist := filterDepthList_le hall
      simp only [filterDepth]
      omega
    · -- tag 1: Or
      obtain ⟨⟨i2, subs⟩, hs, h⟩ := ebind_ok_elim h
      cases h
      obtain ⟨r1, hdr1, l, r2, hh1, _, hle, _, _, hf⟩ := tagged_implicit_ok_elim hs
      have hlen1 := header_len hh1
      obtain ⟨hne, hmem⟩ := many1_ok_elim hf
      have hall : ∀ x ∈ subs, filterDepth x ≤ i.length - 2 := by
        intro x hx
        obtain ⟨j, r, hjl, hpj⟩ := hmem x hx
        have hx2 := ih j r x (completeC_ok_elim hpj)
        have hcl : (List.take l r1).length ≤ i.length - 2 := by
          simp only [List.length_take]
          omega
        omega
      have hlist := filterDepthList_le hall
      simp only [filterDepth]
      omega
    · -- tag 2: Not
      obtain ⟨⟨i2, sub⟩, hs, h⟩ := ebind_ok_elim h
      cases h
      obtain ⟨r1, hdr1, l, r2, hh1, _, hle, _, _, hf⟩ := tagged_implicit_ok_elim hs
      have hlen1 := header_len hh1
      have hsub := ih _ _ _ hf
      simp only [List.length_take] at hsub
      simp only [filterDepth]
      omega
    · -- tag 3: EqualityMatch
      obtain ⟨r1, hdr1, l, r2, hh1, _, _, _, _, hf⟩ := tagged_implicit_ok_elim h
      obtain ⟨w, rfl⟩ := pmap_ok_elim hf
      have hlen1 := header_len hh1
      simp only [filterDepth]
      omega
    · -- tag 4: Substrings
      obtain ⟨r1, hdr1, l, r2, hh1, _, _, _, _, hf⟩ := tagged_implicit_ok_elim h
      obtain ⟨w, rfl⟩ := pmap_ok_elim hf
      have hlen1 := header_len hh1
      simp only [filterDepth]
      omega
    · -- tag 5: GreaterOrEqual
      obtain ⟨r1, hdr1, l, r2, hh1, _, _, _, _, hf⟩ := tagged_implicit_ok_elim h
      obtain ⟨w, rfl⟩ := pmap_ok_elim hf
      have hlen1 := header_len hh1
      simp only [filterDepth]
      omega
    · -- tag 6: LessOrEqual
      obtain ⟨r1, hdr1, l, r2, hh1, _, _, _, _, hf⟩ := tagged_implicit_ok_elim h
      obtain ⟨w, rfl⟩ := pmap_ok_elim hf
      have hlen1 := header_len hh1
      simp only [filterDepth]
      omega
    · -- tag 7: Present
      obtain ⟨r1, hdr1, l, r2, hh1, _, _, _, _, hf⟩ := tagged_implicit_ok_elim h
      have hlen1 := header_len hh1
      by_cases hu : utf8Valid (List.take l r1)
      · simp only [hu, if_true, Except.ok.injEq, Prod.mk.injEq] at hf
        rcases hf with ⟨-, rfl⟩
        simp only [filterDepth]
        omega
      · simp [hu] at hf
    · -- tag 8: ApproxMatch
      obtain ⟨r1, hdr1, l, r2, hh1, _, _, _, _, hf⟩ := tagged_implicit_ok_elim h
      obtain ⟨w, rfl⟩ := pmap_ok_elim hf
      have hlen1 := header_len hh1
      simp only [filterDepth]
      omega
    · -- tag 9: ExtensibleMatch
      obtain ⟨r1, hdr1, l, r2, hh1, _, _, _, _, hf⟩ := tagged_implicit_ok_elim h
      obtain ⟨w, rfl⟩ := pmap_ok_elim hf
      have hlen1 := header_len hh1
      simp only [filterDepth]
      omega
    · -- tags ≥ 10: InvalidFilterType
      simp at h

/-- Witness for the amended C2 theorem: the Present filter 87 01 61 decodes
at fuel 4 and its depth 1 is at most the input length 3. -/
theorem filter_depth_bounded_witness :
    parse_ldap_filter 4 [0x87, 1, 0x61] = Except.ok ([], Filter.Present ⟨[0x61]⟩)
    ∧ filterDepth (Filter.Present ⟨[0x61]⟩) ≤ 3 :=
  ⟨rfl, filter_depth_bounded 4 [0x87, 1, 0x61] [] (Filter.Present ⟨[0x61]⟩) rfl⟩

end LdapSpec
